import Mathlib

/-!
# mapstorage: the resource-correlation pipeline

A shallow embedding of `backups.go` and `tiering.go`.

* Go strings are modelled by `String`; `strings.HasPrefix` and `strings.Split`
  are defined on the character list (for valid UTF-8 text and an ASCII
  separator this agrees with Go's byte-wise functions).
* A Go function returning `(value, error)` returns a pair whose last component
  is an `Option Error` (`none` is Go's `nil` error).  A nil slice and an empty
  slice are both the empty list.
* An index expression out of range is a run-time panic: `Outcome.panic`.
* Everything outside the process (the REST endpoints with their JSON decoding,
  and the storage-size lookup) is a `World`: each answer may depend on the
  whole history of calls made so far, and every call is appended to that
  history, which the functions thread through explicitly.
-/

namespace Mapstorage

/-! ## Go runtime -/

/-- Go's `error` values; only their identity matters here. -/
abbrev Error := String

/-- The way a Go function body ends: it returns its results, or a run-time
panic unwinds it. -/
inductive Outcome (α : Type) where
  | ret (a : α)
  | panic
  deriving DecidableEq

/-- Model of `strings.HasPrefix(s, pre)`. -/
def HasPrefix (s pre : String) : Bool :=
  pre.data.isPrefixOf s.data

/-- Segments of a character list around each occurrence of `sep`; the result
has one more segment than there are separators (so it is never empty). -/
def splitChars (sep : Char) : List Char → List (List Char)
  | [] => [[]]
  | c :: cs =>
    if c = sep then [] :: splitChars sep cs
    else
      match splitChars sep cs with
      | [] => [[c]]
      | seg :: segs => (c :: seg) :: segs

/-- Model of `strings.Split(s, sep)` for a one-character separator (the only
form the program uses: `":"`). -/
def Split (s : String) (sep : Char) : List String :=
  (splitChars sep s.data).map String.mk

/-! ## Data model -/

/-- The struct `destination` of backups.go. -/
structure destination where
  Path : String
  UUID : String
  deriving DecidableEq, Inhabited

/-- One element of `relationships.Records` (an anonymous struct in the source). -/
structure relationshipsRecord where
  UUID : String
  Destination : destination
  deriving DecidableEq, Inhabited

/-- The struct `relationships` of backups.go. -/
structure relationships where
  Records : List relationshipsRecord
  deriving DecidableEq, Inhabited

/-- The anonymous struct of the field `relationship.Source`. -/
structure relationshipSource where
  Path : String
  deriving DecidableEq, Inhabited

/-- The struct `relationship` of backups.go. -/
structure relationship where
  UUID : String
  Source : relationshipSource
  Destination : destination
  deriving DecidableEq, Inhabited

/-- Modelled from the spec: the row type that `mapVolToBackup` builds with the
fields `Name`, `UUID` and `Size`.  backups.go calls it `volume`, but the
declaration of `volume` under src (tiering.go) has no `Size` field, so the
declaration backups.go was compiled against is missing; the spec's ReportRow
gives the three fields (volume name, id, size string). -/
structure backupVolume where
  Name : String
  UUID : String
  Size : String
  deriving DecidableEq, Inhabited

/-- One element of `targets.Records` (an anonymous struct in the source). -/
structure targetsRecord where
  UUID : String
  Name : String
  deriving DecidableEq, Inhabited

/-- The struct `targets` of tiering.go. -/
structure targets where
  Records : List targetsRecord
  deriving DecidableEq, Inhabited

/-- The anonymous struct of the field `target.Cluster`. -/
structure targetCluster where
  Name : String
  deriving DecidableEq, Inhabited

/-- The struct `target` of tiering.go. -/
structure target where
  UUID : String
  Name : String
  Container : String
  Cluster : targetCluster
  deriving DecidableEq, Inhabited

/-- The struct `volume` of tiering.go. -/
structure volume where
  Name : String
  UUID : String
  Server : String
  deriving DecidableEq, Inhabited

/-- The struct `volumes` of tiering.go. -/
structure volumes where
  Records : List volume
  deriving DecidableEq, Inhabited

/-- The struct `btUUID` of tiering.go. -/
structure btUUID where
  OsName : String
  BuftreeUUID : String
  VolUUID : String
  deriving DecidableEq, Inhabited

/-- The struct `objectStore` of tiering.go. -/
structure objectStore where
  Records : List btUUID
  deriving DecidableEq, Inhabited

/-- The struct `volumeData` of main.go. -/
structure volumeData where
  Name : String
  UUID : String
  Size : String
  Server : String
  Bucket : String
  deriving DecidableEq, Inhabited

/-! ## The outside world -/

/-- One call that leaves the process. -/
inductive Call where
  | get (creds url : String)
  | size (container uuid : String)
  deriving DecidableEq

/-- The external collaborators.  A `fetch…` field is the authenticated GET of
a URL followed by the JSON decoding of the body into the named shape: it gives
the decoded variable as the source function hands it back, and the error
(`none` on success).  `getStorageSize` is the storage-size lookup, which is
not part of the repository's sources (the storage client handle it also takes
in tiering.go is left out).  The first argument is the history of calls so
far. -/
structure World where
  fetchRelationships : List Call → String → String → relationships × Option Error
  fetchRelationship : List Call → String → String → relationship × Option Error
  fetchTargets : List Call → String → String → targets × Option Error
  fetchTarget : List Call → String → String → target × Option Error
  fetchVolumes : List Call → String → String → volumes × Option Error
  fetchObjectStore : List Call → String → String → objectStore × Option Error
  getStorageSize : List Call → String → String → String × Option Error

/-! ## backups.go -/

/-- The `for` loop of `getRelationships`: the container is the first element
of the split of the first destination path with the prefix `netapp-backup`;
the variable keeps its zero value when the loop ends without a match. -/
def getRelationshipsLoop : List relationshipsRecord → Outcome String
  | [] => .ret ""
  | v :: vs =>
    if HasPrefix v.Destination.Path "netapp-backup" then
      match (Split v.Destination.Path ':')[0]? with
      | some container => .ret container
      | none => .panic
    else getRelationshipsLoop vs

/-- Model of `getRelationships(creds, cluster)`. -/
def getRelationships (w : World) (h : List Call) (creds cluster : String) :
    Outcome (String × String × relationships × Option Error) × List Call :=
  let url := "https://" ++ cluster ++ "/api/snapmirror/relationships/"
  let resp := w.fetchRelationships h creds url
  let h1 := h ++ [Call.get creds url]
  match resp.2 with
  | some err => (.ret ("", "", resp.1, some err), h1)
  | none =>
    match getRelationshipsLoop resp.1.Records with
    | .panic => (.panic, h1)
    | .ret container => (.ret (container, url, resp.1, none), h1)

/-- Model of `getRelationship(creds, url, uuid)`. -/
def getRelationship (w : World) (h : List Call) (creds url uuid : String) :
    (relationship × Option Error) × List Call :=
  (w.fetchRelationship h creds (url ++ uuid), h ++ [Call.get creds (url ++ uuid)])

/-- The `for` loop of `mapVolToBackup`, started with the rows built so far
(`volData`) and the call history. -/
def mapVolToBackupLoop (w : World) (creds container url : String) :
    List relationshipsRecord → List backupVolume → List Call →
      Outcome (List backupVolume × Option Error) × List Call
  | [], volData, h => (.ret (volData, none), h)
  | v :: vs, volData, h =>
    if HasPrefix v.Destination.Path container then
      let g := getRelationship w h creds url v.UUID
      match g.1.2 with
      | some err => (.ret ([], some err), g.2)
      | none =>
        let r := g.1.1
        if r.UUID = v.UUID then
          let source := Split r.Source.Path ':'
          let s := w.getStorageSize g.2 container r.Destination.UUID
          let h2 := g.2 ++ [Call.size container r.Destination.UUID]
          match s.2 with
          | some err => (.ret ([], some err), h2)
          | none =>
            match source[1]? with
            | none => (.panic, h2)
            | some name =>
              mapVolToBackupLoop w creds container url vs
                (volData ++ [{ Name := name, UUID := r.Destination.UUID, Size := s.1 }]) h2
        else mapVolToBackupLoop w creds container url vs volData g.2
    else mapVolToBackupLoop w creds container url vs volData h

/-- Model of `mapVolToBackup(creds, container, url, rel)`. -/
def mapVolToBackup (w : World) (h : List Call) (creds container url : String)
    (rel : relationships) : Outcome (List backupVolume × Option Error) × List Call :=
  mapVolToBackupLoop w creds container url rel.Records [] h

/-- Model of `getBackupSize(creds, cluster)`. -/
def getBackupSize (w : World) (h : List Call) (creds cluster : String) :
    Outcome (List backupVolume × Option Error) × List Call :=
  match getRelationships w h creds cluster with
  | (.panic, h1) => (.panic, h1)
  | (.ret (_, _, _, some err), h1) => (.ret ([], some err), h1)
  | (.ret (container, url, rel, none), h1) =>
    match mapVolToBackup w h1 creds container url rel with
    | (.panic, h2) => (.panic, h2)
    | (.ret (_, some err), h2) => (.ret ([], some err), h2)
    | (.ret (v, none), h2) => (.ret (v, none), h2)

/-! ## tiering.go -/

/-- Model of `getTargets(creds, cluster)`. -/
def getTargets (w : World) (h : List Call) (creds cluster : String) :
    (String × targets × Option Error) × List Call :=
  let url := "https://" ++ cluster ++ "/api/cloud/targets/"
  let resp := w.fetchTargets h creds url
  let h1 := h ++ [Call.get creds url]
  match resp.2 with
  | some err => (("", resp.1, some err), h1)
  | none => ((url, resp.1, none), h1)

/-- The `for` loop of `getTarget`, started with the current values of the
variables `container`, `clusterName` and `name`. -/
def getTargetLoop (w : World) (creds url : String) :
    List targetsRecord → String → String → String → List Call →
      (String × String × String × Option Error) × List Call
  | [], container, clusterName, name, h => ((container, clusterName, name, none), h)
  | v :: vs, container, clusterName, name, h =>
    if v.Name = "StorageAccount" then
      let resp := w.fetchTarget h creds (url ++ v.UUID)
      let h1 := h ++ [Call.get creds (url ++ v.UUID)]
      match resp.2 with
      | some err => (("", "", "", some err), h1)
      | none => getTargetLoop w creds url vs resp.1.Container resp.1.Cluster.Name v.Name h1
    else getTargetLoop w creds url vs container clusterName name h

/-- Model of `getTarget(creds, cluster)`. -/
def getTarget (w : World) (h : List Call) (creds cluster : String) :
    (String × String × String × Option Error) × List Call :=
  let ts := getTargets w h creds cluster
  match ts.1.2.2 with
  | some err => (("", "", "", some err), ts.2)
  | none => getTargetLoop w creds ts.1.1 ts.1.2.1.Records "" "" "" ts.2

/-- Model of `getVolumes(creds, cluster)`. -/
def getVolumes (w : World) (h : List Call) (creds cluster : String) :
    (volumes × Option Error) × List Call :=
  let url := "https://" ++ cluster ++ "/api/private/cli/volume/?fields=uuid,volume"
  (w.fetchVolumes h creds url, h ++ [Call.get creds url])

/-- The `for` loop of `getVolList`, started with the volumes kept so far. -/
def getVolListLoop (clusterName : String) : List volume → List volume → List volume
  | [], svol => svol
  | v :: vs, svol =>
    if v.Server = "svm_" ++ clusterName then
      if HasPrefix v.Name "svm_" then getVolListLoop clusterName vs svol
      else
        getVolListLoop clusterName vs
          (svol ++ [{ Name := v.Name, UUID := v.UUID, Server := v.Server }])
    else getVolListLoop clusterName vs svol

/-- Model of `getVolList(creds, cluster, clusterName)`. -/
def getVolList (w : World) (h : List Call) (creds cluster clusterName : String) :
    (List volume × Option Error) × List Call :=
  let vols := getVolumes w h creds cluster
  match vols.1.2 with
  | some err => (([], some err), vols.2)
  | none => ((getVolListLoop clusterName vols.1.1.Records [], none), vols.2)

/-- Model of `getObjectStore(creds, cluster)`. -/
def getObjectStore (w : World) (h : List Call) (creds cluster : String) :
    (objectStore × Option Error) × List Call :=
  let url := "https://" ++ cluster ++
    "/api/private/cli/storage/aggregate/object-store/vol-btuuids?fields=buftree_uuid,vol_uuid"
  (w.fetchObjectStore h creds url, h ++ [Call.get creds url])

/-- The `for` loop of `getBtUUidList`, started with the mappings kept so far. -/
def getBtUUidListLoop (osName : String) : List btUUID → List btUUID → List btUUID
  | [], b => b
  | v :: vs, b =>
    if v.OsName = osName then
      getBtUUidListLoop osName vs
        (b ++ [{ OsName := v.OsName, BuftreeUUID := v.BuftreeUUID, VolUUID := v.VolUUID }])
    else getBtUUidListLoop osName vs b

/-- Model of `getBtUUidList(creds, cluster, osName)`. -/
def getBtUUidList (w : World) (h : List Call) (creds cluster osName : String) :
    (List btUUID × Option Error) × List Call :=
  let os := getObjectStore w h creds cluster
  match os.1.2 with
  | some err => (([], some err), os.2)
  | none => ((getBtUUidListLoop osName os.1.1.Records [], none), os.2)

/-- The inner `for` loop of `mapVolToTiering` (over `btus`, for one volume
`v1`).  `Sum.inl err` is the `return nil, err` that leaves the whole function;
`Sum.inr volData` is the normal end of the loop. -/
def mapVolToTieringInner (w : World) (container : String) (v1 : volume) :
    List btUUID → List volumeData → List Call → (Error ⊕ List volumeData) × List Call
  | [], volData, h => (.inr volData, h)
  | v2 :: rest, volData, h =>
    if v1.UUID = v2.VolUUID then
      let s := w.getStorageSize h container v2.BuftreeUUID
      let h1 := h ++ [Call.size container v2.BuftreeUUID]
      match s.2 with
      | some err => (.inl err, h1)
      | none =>
        mapVolToTieringInner w container v1 rest
          (volData ++ [{ Name := v1.Name, UUID := v2.BuftreeUUID, Size := s.1,
                         Server := v1.Server, Bucket := container }]) h1
    else mapVolToTieringInner w container v1 rest volData h

/-- The outer `for` loop of `mapVolToTiering` (over `vols`). -/
def mapVolToTieringLoop (w : World) (container : String) (btus : List btUUID) :
    List volume → List volumeData → List Call → (List volumeData × Option Error) × List Call
  | [], volData, h => ((volData, none), h)
  | v1 :: vs, volData, h =>
    match mapVolToTieringInner w container v1 btus volData h with
    | (.inl err, h1) => (([], some err), h1)
    | (.inr volData1, h1) => mapVolToTieringLoop w container btus vs volData1 h1

/-- Model of `mapVolToTiering(container, vols, btus, client)`. -/
def mapVolToTiering (w : World) (h : List Call) (container : String) (vols : List volume)
    (btus : List btUUID) : (List volumeData × Option Error) × List Call :=
  mapVolToTieringLoop w container btus vols [] h

/-- Model of `getTieringSize(creds, cluster, client)`. -/
def getTieringSize (w : World) (h : List Call) (creds cluster : String) :
    (String × List volumeData × Option Error) × List Call :=
  let t := getTarget w h creds cluster
  match t.1.2.2.2 with
  | some err => (("", [], some err), t.2)
  | none =>
    let vols := getVolList w t.2 creds cluster t.1.2.1
    match vols.1.2 with
    | some err => (("", [], some err), vols.2)
    | none =>
      let btus := getBtUUidList w vols.2 creds cluster t.1.2.2.1
      match btus.1.2 with
      | some err => (("", [], some err), btus.2)
      | none =>
        let volData := mapVolToTiering w btus.2 t.1.1 vols.1.1 btus.1.1
        match volData.1.2 with
        | some err => (("", [], some err), volData.2)
        | none => ((t.1.1, volData.1.1, none), volData.2)

/-! ## Worlds with fixed answers -/

/-- A world that answers every call the same way whatever the history. -/
def constWorld (rel : relationships) (r : String → relationship × Option Error)
    (ts : targets) (t : String → target × Option Error) (vols : volumes) (os : objectStore)
    (size : String → String → String × Option Error) : World where
  fetchRelationships := fun _ _ _ => (rel, none)
  fetchRelationship := fun _ _ url => r url
  fetchTargets := fun _ _ _ => (ts, none)
  fetchTarget := fun _ _ url => t url
  fetchVolumes := fun _ _ _ => (vols, none)
  fetchObjectStore := fun _ _ _ => (os, none)
  getStorageSize := fun _ c u => size c u


/-! ## Specification vocabulary -/

/-- Spec wording: the text before the first `:` of a path (the whole path when
it has no `:`). -/
def textBeforeFirstColon (path : String) : String :=
  ⟨path.data.takeWhile (fun c => c != ':')⟩

/-- Spec wording: the container is taken from the first record, in list order,
whose destination path starts with `netapp-backup`, and is empty when there is
none. -/
def inferContainer (records : List relationshipsRecord) : String :=
  match records.find? (fun v => HasPrefix v.Destination.Path "netapp-backup") with
  | some v => textBeforeFirstColon v.Destination.Path
  | none => ""

/-- Spec wording: the records of a target list named exactly `StorageAccount`,
in list order. -/
def storageAccounts (records : List targetsRecord) : List targetsRecord :=
  records.filter (fun v => decide (v.Name = "StorageAccount"))

/-- The call `getTarget` makes for the detail of the target record `v`. -/
def detailCall (creds url : String) (v : targetsRecord) : Call :=
  Call.get creds (url ++ v.UUID)

/-- Spec wording: the second `:`-separated segment of a path, that is the text
between the first `:` and the next `:` or the end. -/
def secondSegment (path : String) : String :=
  ⟨((path.data.dropWhile (fun c => c != ':')).drop 1).takeWhile (fun c => c != ':')⟩

/-- The error, if any, with which the world answers the call `x` made by
`mapVolToBackup` after the history `p`: a GET there is a relationship-detail
fetch, a size call is the storage-size lookup. -/
def backupCallError (w : World) (p : List Call) : Call → Option Error
  | .get creds url => (w.fetchRelationship p creds url).2
  | .size container uuid => (w.getStorageSize p container uuid).2

/-! ## Concrete worlds -/

/-- Scenario A of the spec: one relationship to `netapp-backup1:volA`. -/
def worldA : World :=
  constWorld ⟨[⟨"r1", ⟨"netapp-backup1:volA", "d1"⟩⟩]⟩
    (fun _ => (⟨"r1", ⟨"aggr1:volA"⟩, ⟨"netapp-backup1:volA", "d1"⟩⟩, none))
    ⟨[]⟩ (fun _ => (default, none)) ⟨[]⟩ ⟨[]⟩ (fun _ _ => ("1GB", none))

/-- A cluster whose only relationship goes to `other:volA`, not to a
`netapp-backup` destination. -/
def worldNoBackup : World :=
  constWorld ⟨[⟨"r1", ⟨"other:volA", "d1"⟩⟩]⟩
    (fun _ => (⟨"r1", ⟨"aggr1:volA"⟩, ⟨"other:volA", "d1"⟩⟩, none))
    ⟨[]⟩ (fun _ => (default, none)) ⟨[]⟩ ⟨[]⟩ (fun _ _ => ("1GB", none))

/-- A cluster with two targets named `StorageAccount`, whose details differ,
three volumes and two buftree mappings. -/
def worldTwoTargets : World :=
  constWorld ⟨[]⟩ (fun _ => (default, none))
    ⟨[⟨"t1", "StorageAccount"⟩, ⟨"t0", "Other"⟩, ⟨"t2", "StorageAccount"⟩]⟩
    (fun url =>
      if url = "https://host/api/cloud/targets/t1" then
        (⟨"t1", "StorageAccount", "c1", ⟨"cluster1"⟩⟩, none)
      else (⟨"t2", "StorageAccount", "c2", ⟨"cluster2"⟩⟩, none))
    ⟨[⟨"svm_internal", "v1", "svm_cluster1"⟩, ⟨"vol1", "v2", "svm_cluster1"⟩,
      ⟨"vol2", "v3", "svm_other"⟩]⟩
    ⟨[⟨"StorageAccount", "b1", "v2"⟩, ⟨"StorageAccount", "b2", "v2"⟩]⟩
    (fun _ _ => ("1GB", none))

/-- A cluster with no target named `StorageAccount`, a volume owned by the
server `svm_` and a mapping with an empty object-store name. -/
def worldNoTarget : World :=
  constWorld ⟨[]⟩ (fun _ => (default, none))
    ⟨[⟨"t0", "Other"⟩]⟩ (fun _ => (default, none))
    ⟨[⟨"vol1", "u1", "svm_"⟩]⟩ ⟨[⟨"", "b1", "u1"⟩]⟩ (fun _ _ => ("1GB", none))

/-- The same cluster as `worldNoTarget` with ordinary volumes and mappings. -/
def worldNoTargetPlain : World :=
  constWorld ⟨[]⟩ (fun _ => (default, none))
    ⟨[⟨"t0", "Other"⟩]⟩ (fun _ => (default, none))
    ⟨[⟨"vol1", "u1", "svm_cluster1"⟩]⟩ ⟨[⟨"StorageAccount", "b1", "u1"⟩]⟩
    (fun _ _ => ("1GB", none))

/-- A cluster whose only relationship goes to `other:volA` and whose detail
endpoint answers with a relationship of another id. -/
def worldAllMismatch : World :=
  constWorld ⟨[⟨"r1", ⟨"other:volA", "d1"⟩⟩]⟩
    (fun _ => (⟨"zz", ⟨"aggr1:volA"⟩, ⟨"other:volA", "d1"⟩⟩, none))
    ⟨[]⟩ (fun _ => (default, none)) ⟨[]⟩ ⟨[]⟩ (fun _ _ => ("1GB", none))

/-- A world whose size lookup fails for the id `b2` and succeeds otherwise. -/
def worldSizeFails : World :=
  constWorld ⟨[]⟩ (fun _ => (default, none)) ⟨[]⟩ (fun _ => (default, none)) ⟨[]⟩ ⟨[]⟩
    (fun _ u => if u = "b2" then ("", some "denied") else ("1GB", none))

/-- A cluster with two relationships to `netapp-backup1`, whose size lookup
fails for the destination id `b2` of the second one. -/
def worldBackupSizeFails : World :=
  constWorld
    ⟨[⟨"r1", ⟨"netapp-backup1:volA", "d1"⟩⟩, ⟨"r2", ⟨"netapp-backup1:volB", "b2"⟩⟩]⟩
    (fun url =>
      if url = "u/r1" then (⟨"r1", ⟨"aggr1:volA"⟩, ⟨"netapp-backup1:volA", "d1"⟩⟩, none)
      else (⟨"r2", ⟨"aggr1:volB"⟩, ⟨"netapp-backup1:volB", "b2"⟩⟩, none))
    ⟨[]⟩ (fun _ => (default, none)) ⟨[]⟩ ⟨[]⟩
    (fun _ u => if u = "b2" then ("", some "denied") else ("1GB", none))

/-! # Theorems -/

/-! ## Strings -/

theorem splitChars_eq (sep : Char) (s : List Char) :
    splitChars sep s = s.takeWhile (fun c => c != sep) ::
      (match s.dropWhile (fun c => c != sep) with
       | [] => []
       | _ :: t => splitChars sep t) := by
  induction s with
  | nil => simp [splitChars]
  | cons c cs ih =>
    by_cases hc : c = sep
    · simp [splitChars, hc, List.takeWhile_cons, List.dropWhile_cons]
    · have hb : (c != sep) = true := by simp [hc]
      rw [splitChars, if_neg hc, ih]
      simp [List.takeWhile_cons, List.dropWhile_cons, hb]

theorem dropWhile_ne_eq_nil (sep : Char) (s : List Char) :
    s.dropWhile (fun c => c != sep) = [] ↔ sep ∉ s := by
  induction s with
  | nil => simp
  | cons c cs ih =>
    by_cases hc : c = sep
    · simp [List.dropWhile_cons, hc]
    · have hb : (c != sep) = true := by simp [hc]
      simp [List.dropWhile_cons, hb, ih, Ne.symm hc]

theorem Split_zero (s : String) (sep : Char) :
    (Split s sep)[0]? = some ⟨s.data.takeWhile (fun c => c != sep)⟩ := by
  unfold Split
  rw [splitChars_eq]
  simp

theorem Split_one (s : String) (sep : Char) :
    (Split s sep)[1]? =
      if sep ∈ s.data then
        some ⟨((s.data.dropWhile (fun c => c != sep)).drop 1).takeWhile (fun c => c != sep)⟩
      else none := by
  unfold Split
  rw [splitChars_eq]
  by_cases hs : sep ∈ s.data
  · rw [if_pos hs]
    have hne : s.data.dropWhile (fun c => c != sep) ≠ [] := by
      rw [Ne, dropWhile_ne_eq_nil]; exact not_not.mpr hs
    cases hd : s.data.dropWhile (fun c => c != sep) with
    | nil => exact absurd hd hne
    | cons x t =>
      dsimp only
      rw [splitChars_eq]
      simp
  · rw [if_neg hs]
    have hd : s.data.dropWhile (fun c => c != sep) = [] := (dropWhile_ne_eq_nil sep _).mpr hs
    rw [hd]
    simp

theorem HasPrefix_empty (s : String) : HasPrefix s "" = true := by
  simp [HasPrefix]

theorem svm_append_empty : ("svm_" ++ "" : String) = "svm_" := by decide


/-! ## Container inference (backup) -/

theorem getRelationshipsLoop_eq (records : List relationshipsRecord) :
    getRelationshipsLoop records = .ret (inferContainer records) := by
  induction records with
  | nil => rfl
  | cons v vs ih =>
    by_cases hp : HasPrefix v.Destination.Path "netapp-backup" = true
    · simp [getRelationshipsLoop, hp, Split_zero, inferContainer, textBeforeFirstColon]
    · simp only [Bool.not_eq_true] at hp
      simp [getRelationshipsLoop, hp, ih, inferContainer]

theorem getRelationships_ok (w : World) (h : List Call) (creds cluster : String)
    (hfetch : (w.fetchRelationships h creds
      ("https://" ++ cluster ++ "/api/snapmirror/relationships/")).2 = none) :
    getRelationships w h creds cluster =
      (.ret (inferContainer (w.fetchRelationships h creds
          ("https://" ++ cluster ++ "/api/snapmirror/relationships/")).1.Records,
        "https://" ++ cluster ++ "/api/snapmirror/relationships/",
        (w.fetchRelationships h creds
          ("https://" ++ cluster ++ "/api/snapmirror/relationships/")).1, none),
       h ++ [Call.get creds ("https://" ++ cluster ++ "/api/snapmirror/relationships/")]) := by
  simp [getRelationships, hfetch, getRelationshipsLoop_eq]

/-! ## Volume and mapping filters (tiering) -/

theorem getVolListLoop_eq (clusterName : String) (vs svol : List volume) :
    getVolListLoop clusterName vs svol =
      svol ++ vs.filter (fun v =>
        decide (v.Server = "svm_" ++ clusterName) && !HasPrefix v.Name "svm_") := by
  induction vs generalizing svol with
  | nil => simp [getVolListLoop]
  | cons v vs ih =>
    obtain ⟨name, uuid, server⟩ := v
    by_cases hs : server = "svm_" ++ clusterName
    · subst hs
      by_cases hn : HasPrefix name "svm_" = true
      · simp [getVolListLoop, hn, ih]
      · simp only [Bool.not_eq_true] at hn
        simp [getVolListLoop, hn, ih]
    · simp [getVolListLoop, hs, ih]

theorem getBtUUidListLoop_eq (osName : String) (vs b : List btUUID) :
    getBtUUidListLoop osName vs b = b ++ vs.filter (fun v => decide (v.OsName = osName)) := by
  induction vs generalizing b with
  | nil => simp [getBtUUidListLoop]
  | cons v vs ih =>
    obtain ⟨os, bt, vol⟩ := v
    by_cases hs : os = osName
    · subst hs
      simp [getBtUUidListLoop, ih]
    · simp [getBtUUidListLoop, hs, ih]

/-! ## Target selection (tiering) -/

theorem getTargetLoop_no_match (w : World) (creds url : String) (vs : List targetsRecord)
    (container clusterName name : String) (h : List Call)
    (hno : ∀ v ∈ vs, v.Name ≠ "StorageAccount") :
    getTargetLoop w creds url vs container clusterName name h =
      ((container, clusterName, name, none), h) := by
  induction vs with
  | nil => rfl
  | cons v vs ih =>
    have hv : v.Name ≠ "StorageAccount" := hno v (List.mem_cons_self _ _)
    rw [getTargetLoop, if_neg hv]
    exact ih (fun x hx => hno x (List.mem_cons_of_mem _ hx))

theorem getTargetLoop_last (w : World) (creds url : String)
    (hdet : ∀ h u, (w.fetchTarget h creds u).2 = none) (vs : List targetsRecord)
    (container clusterName name : String) (h : List Call) :
    getTargetLoop w creds url vs container clusterName name h =
      ((match (storageAccounts vs).getLast? with
        | none => (container, clusterName, name, none)
        | some v =>
          ((w.fetchTarget (h ++ (storageAccounts vs).dropLast.map (detailCall creds url))
              creds (url ++ v.UUID)).1.Container,
           (w.fetchTarget (h ++ (storageAccounts vs).dropLast.map (detailCall creds url))
              creds (url ++ v.UUID)).1.Cluster.Name,
           "StorageAccount", none)),
       h ++ (storageAccounts vs).map (detailCall creds url)) := by
  induction vs generalizing container clusterName name h with
  | nil => simp [getTargetLoop, storageAccounts]
  | cons v vs ih =>
    by_cases hv : v.Name = "StorageAccount"
    · have hf : storageAccounts (v :: vs) = v :: storageAccounts vs := by
        simp [storageAccounts, hv]
      rw [getTargetLoop, if_pos hv]
      simp only [hdet]
      rw [ih, hf]
      cases hm : storageAccounts vs with
      | nil => simp [detailCall, hv]
      | cons m ms =>
        have hl := List.getLast?_eq_getLast (m :: ms) (List.cons_ne_nil m ms)
        simp [detailCall, List.getLast?_cons_cons, hl]
    · have hf : storageAccounts (v :: vs) = storageAccounts vs := by
        simp [storageAccounts, hv]
      rw [getTargetLoop, if_neg hv, ih, hf]

/-! ## Call histories -/

theorem history_no_room (h p : List Call) (x : Call) (hp : h <+: p)
    (hx : p ++ [x] <+: h) : False := by
  have h1 := hp.length_le
  have h2 := hx.length_le
  simp at h2
  omega

theorem history_next (h p res : List Call) (x call : Call) (hp : h <+: p)
    (hx : p ++ [x] <+: res) (hcall : h ++ [call] <+: res) :
    (p = h ∧ x = call) ∨ h ++ [call] <+: p := by
  by_cases hlen : p.length = h.length
  · left
    have hph : p = h := (hp.eq_of_length hlen.symm).symm
    subst hph
    have hle : (p ++ [x]).length ≤ (p ++ [call]).length := by simp
    have hpre := List.prefix_of_prefix_length_le hx hcall hle
    have := hpre.eq_of_length (by simp)
    simpa using this
  · right
    have h1 := hp.length_le
    have hpres : p <+: res := (List.prefix_append p [x]).trans hx
    exact List.prefix_of_prefix_length_le hcall hpres (by simp; omega)

/-! ## The loop of `mapVolToBackup`, one summary at a time -/

theorem mapVolToBackupLoop_skip (w : World) (creds container url : String)
    (v : relationshipsRecord) (vs : List relationshipsRecord) (volData : List backupVolume)
    (h : List Call) (hp : HasPrefix v.Destination.Path container = false) :
    mapVolToBackupLoop w creds container url (v :: vs) volData h =
      mapVolToBackupLoop w creds container url vs volData h := by
  simp [mapVolToBackupLoop, hp]

theorem mapVolToBackupLoop_fetch_err (w : World) (creds container url : String)
    (v : relationshipsRecord) (vs : List relationshipsRecord) (volData : List backupVolume)
    (h : List Call) (err : Error) (hp : HasPrefix v.Destination.Path container = true)
    (hf : (getRelationship w h creds url v.UUID).1.2 = some err) :
    mapVolToBackupLoop w creds container url (v :: vs) volData h =
      (.ret ([], some err), (getRelationship w h creds url v.UUID).2) := by
  simp [mapVolToBackupLoop, hp, hf]

theorem mapVolToBackupLoop_mismatch (w : World) (creds container url : String)
    (v : relationshipsRecord) (vs : List relationshipsRecord) (volData : List backupVolume)
    (h : List Call) (hp : HasPrefix v.Destination.Path container = true)
    (hf : (getRelationship w h creds url v.UUID).1.2 = none)
    (hid : (getRelationship w h creds url v.UUID).1.1.UUID ≠ v.UUID) :
    mapVolToBackupLoop w creds container url (v :: vs) volData h =
      mapVolToBackupLoop w creds container url vs volData
        (getRelationship w h creds url v.UUID).2 := by
  simp [mapVolToBackupLoop, hp, hf, hid]

theorem mapVolToBackupLoop_size_err (w : World) (creds container url : String)
    (v : relationshipsRecord) (vs : List relationshipsRecord) (volData : List backupVolume)
    (h : List Call) (err : Error) (hp : HasPrefix v.Destination.Path container = true)
    (hf : (getRelationship w h creds url v.UUID).1.2 = none)
    (hid : (getRelationship w h creds url v.UUID).1.1.UUID = v.UUID)
    (hs : (w.getStorageSize (getRelationship w h creds url v.UUID).2 container
      (getRelationship w h creds url v.UUID).1.1.Destination.UUID).2 = some err) :
    mapVolToBackupLoop w creds container url (v :: vs) volData h =
      (.ret ([], some err), (getRelationship w h creds url v.UUID).2 ++
        [Call.size container (getRelationship w h creds url v.UUID).1.1.Destination.UUID]) := by
  simp [mapVolToBackupLoop, hp, hf, hid, hs]

theorem mapVolToBackupLoop_panic (w : World) (creds container url : String)
    (v : relationshipsRecord) (vs : List relationshipsRecord) (volData : List backupVolume)
    (h : List Call) (hp : HasPrefix v.Destination.Path container = true)
    (hf : (getRelationship w h creds url v.UUID).1.2 = none)
    (hid : (getRelationship w h creds url v.UUID).1.1.UUID = v.UUID)
    (hs : (w.getStorageSize (getRelationship w h creds url v.UUID).2 container
      (getRelationship w h creds url v.UUID).1.1.Destination.UUID).2 = none)
    (hn : (Split (getRelationship w h creds url v.UUID).1.1.Source.Path ':')[1]? = none) :
    mapVolToBackupLoop w creds container url (v :: vs) volData h =
      (.panic, (getRelationship w h creds url v.UUID).2 ++
        [Call.size container (getRelationship w h creds url v.UUID).1.1.Destination.UUID]) := by
  simp only [mapVolToBackupLoop, hp, hf, hid, hs, hn, if_true]

theorem mapVolToBackupLoop_row (w : World) (creds container url : String)
    (v : relationshipsRecord) (vs : List relationshipsRecord) (volData : List backupVolume)
    (h : List Call) (name : String) (hp : HasPrefix v.Destination.Path container = true)
    (hf : (getRelationship w h creds url v.UUID).1.2 = none)
    (hid : (getRelationship w h creds url v.UUID).1.1.UUID = v.UUID)
    (hs : (w.getStorageSize (getRelationship w h creds url v.UUID).2 container
      (getRelationship w h creds url v.UUID).1.1.Destination.UUID).2 = none)
    (hn : (Split (getRelationship w h creds url v.UUID).1.1.Source.Path ':')[1]? = some name) :
    mapVolToBackupLoop w creds container url (v :: vs) volData h =
      mapVolToBackupLoop w creds container url vs
        (volData ++ [{ Name := name,
                       UUID := (getRelationship w h creds url v.UUID).1.1.Destination.UUID,
                       Size := (w.getStorageSize (getRelationship w h creds url v.UUID).2 container
                         (getRelationship w h creds url v.UUID).1.1.Destination.UUID).1 }])
        ((getRelationship w h creds url v.UUID).2 ++
          [Call.size container (getRelationship w h creds url v.UUID).1.1.Destination.UUID]) := by
  simp only [mapVolToBackupLoop, hp, hf, hid, hs, hn, if_true]

/-- The six ways one iteration of the loop of `mapVolToBackup` can go. -/
theorem mapVolToBackupLoop_cases (w : World) (creds container url : String)
    (v : relationshipsRecord) (vs : List relationshipsRecord) (volData : List backupVolume)
    (h : List Call) :
    (HasPrefix v.Destination.Path container = false ∧
      mapVolToBackupLoop w creds container url (v :: vs) volData h =
        mapVolToBackupLoop w creds container url vs volData h) ∨
    (HasPrefix v.Destination.Path container = true ∧
      ∃ err, (getRelationship w h creds url v.UUID).1.2 = some err ∧
        mapVolToBackupLoop w creds container url (v :: vs) volData h =
          (.ret ([], some err), (getRelationship w h creds url v.UUID).2)) ∨
    (HasPrefix v.Destination.Path container = true ∧
      (getRelationship w h creds url v.UUID).1.2 = none ∧
      (getRelationship w h creds url v.UUID).1.1.UUID ≠ v.UUID ∧
      mapVolToBackupLoop w creds container url (v :: vs) volData h =
        mapVolToBackupLoop w creds container url vs volData
          (getRelationship w h creds url v.UUID).2) ∨
    (HasPrefix v.Destination.Path container = true ∧
      (getRelationship w h creds url v.UUID).1.2 = none ∧
      (getRelationship w h creds url v.UUID).1.1.UUID = v.UUID ∧
      ∃ err, (w.getStorageSize (getRelationship w h creds url v.UUID).2 container
          (getRelationship w h creds url v.UUID).1.1.Destination.UUID).2 = some err ∧
        mapVolToBackupLoop w creds container url (v :: vs) volData h =
          (.ret ([], some err), (getRelationship w h creds url v.UUID).2 ++
            [Call.size container
              (getRelationship w h creds url v.UUID).1.1.Destination.UUID])) ∨
    (HasPrefix v.Destination.Path container = true ∧
      (getRelationship w h creds url v.UUID).1.2 = none ∧
      (getRelationship w h creds url v.UUID).1.1.UUID = v.UUID ∧
      (w.getStorageSize (getRelationship w h creds url v.UUID).2 container
          (getRelationship w h creds url v.UUID).1.1.Destination.UUID).2 = none ∧
      (Split (getRelationship w h creds url v.UUID).1.1.Source.Path ':')[1]? = none ∧
      mapVolToBackupLoop w creds container url (v :: vs) volData h =
        (.panic, (getRelationship w h creds url v.UUID).2 ++
          [Call.size container
            (getRelationship w h creds url v.UUID).1.1.Destination.UUID])) ∨
    (HasPrefix v.Destination.Path container = true ∧
      (getRelationship w h creds url v.UUID).1.2 = none ∧
      (getRelationship w h creds url v.UUID).1.1.UUID = v.UUID ∧
      (w.getStorageSize (getRelationship w h creds url v.UUID).2 container
          (getRelationship w h creds url v.UUID).1.1.Destination.UUID).2 = none ∧
      ∃ name,
        (Split (getRelationship w h creds url v.UUID).1.1.Source.Path ':')[1]? = some name ∧
        mapVolToBackupLoop w creds container url (v :: vs) volData h =
          mapVolToBackupLoop w creds container url vs
            (volData ++ [{ Name := name,
                           UUID := (getRelationship w h creds url v.UUID).1.1.Destination.UUID,
                           Size := (w.getStorageSize (getRelationship w h creds url v.UUID).2
                             container
                             (getRelationship w h creds url v.UUID).1.1.Destination.UUID).1 }])
            ((getRelationship w h creds url v.UUID).2 ++
              [Call.size container
                (getRelationship w h creds url v.UUID).1.1.Destination.UUID])) := by
  cases hp : HasPrefix v.Destination.Path container with
  | false => exact Or.inl ⟨rfl, mapVolToBackupLoop_skip w creds container url v vs volData h hp⟩
  | true =>
    right
    cases hf : (getRelationship w h creds url v.UUID).1.2 with
    | some err =>
      exact Or.inl ⟨rfl, err, rfl,
        mapVolToBackupLoop_fetch_err w creds container url v vs volData h err hp hf⟩
    | none =>
      right
      by_cases hid : (getRelationship w h creds url v.UUID).1.1.UUID = v.UUID
      · right
        cases hs : (w.getStorageSize (getRelationship w h creds url v.UUID).2 container
            (getRelationship w h creds url v.UUID).1.1.Destination.UUID).2 with
        | some err =>
          exact Or.inl ⟨rfl, rfl, hid, err, rfl,
            mapVolToBackupLoop_size_err w creds container url v vs volData h err hp hf hid hs⟩
        | none =>
          right
          cases hn : (Split (getRelationship w h creds url v.UUID).1.1.Source.Path ':')[1]? with
          | none =>
            exact Or.inl ⟨rfl, rfl, hid, rfl, rfl,
              mapVolToBackupLoop_panic w creds container url v vs volData h hp hf hid hs hn⟩
          | some name =>
            exact Or.inr ⟨rfl, rfl, hid, rfl, name, rfl,
              mapVolToBackupLoop_row w creds container url v vs volData h name hp hf hid hs hn⟩
      · exact Or.inl ⟨rfl, rfl, hid,
          mapVolToBackupLoop_mismatch w creds container url v vs volData h hp hf hid⟩

theorem getRelationship_history (w : World) (h : List Call) (creds url uuid : String) :
    (getRelationship w h creds url uuid).2 = h ++ [Call.get creds (url ++ uuid)] := rfl

theorem mapVolToBackupLoop_history (w : World) (creds container url : String)
    (vs : List relationshipsRecord) (volData : List backupVolume) (h : List Call) :
    h <+: (mapVolToBackupLoop w creds container url vs volData h).2 := by
  induction vs generalizing volData h with
  | nil => simp [mapVolToBackupLoop]
  | cons v vs ih =>
    have hg : h <+: (getRelationship w h creds url v.UUID).2 := by
      rw [getRelationship_history]; exact List.prefix_append _ _
    rcases mapVolToBackupLoop_cases w creds container url v vs volData h with
      ⟨_, heq⟩ | ⟨_, err, _, heq⟩ | ⟨_, _, _, heq⟩ | ⟨_, _, _, err, _, heq⟩ |
      ⟨_, _, _, _, _, heq⟩ | ⟨_, _, _, _, name, _, heq⟩
    · rw [heq]; exact ih _ _
    · rw [heq]; exact hg
    · rw [heq]; exact hg.trans (ih _ _)
    · rw [heq]; exact hg.trans (List.prefix_append _ _)
    · rw [heq]; exact hg.trans (List.prefix_append _ _)
    · rw [heq]; exact (hg.trans (List.prefix_append _ _)).trans (ih _ _)

/-! ## Invariants of the loop of `mapVolToBackup` -/

/-- Rows: an error comes with no rows, and every returned row satisfies any
property that is stable under extending the history and that each freshly
built row satisfies. -/
theorem mapVolToBackupLoop_rows (w : World) (creds container url : String)
    (records : List relationshipsRecord) (P : List Call → backupVolume → Prop)
    (hmono : ∀ h1 h2 row, h1 <+: h2 → P h1 row → P h2 row)
    (hnew : ∀ v ∈ records, ∀ (h : List Call) (name : String),
      HasPrefix v.Destination.Path container = true →
      (getRelationship w h creds url v.UUID).1.2 = none →
      (getRelationship w h creds url v.UUID).1.1.UUID = v.UUID →
      (w.getStorageSize (getRelationship w h creds url v.UUID).2 container
        (getRelationship w h creds url v.UUID).1.1.Destination.UUID).2 = none →
      (Split (getRelationship w h creds url v.UUID).1.1.Source.Path ':')[1]? = some name →
      P ((getRelationship w h creds url v.UUID).2 ++
          [Call.size container (getRelationship w h creds url v.UUID).1.1.Destination.UUID])
        { Name := name,
          UUID := (getRelationship w h creds url v.UUID).1.1.Destination.UUID,
          Size := (w.getStorageSize (getRelationship w h creds url v.UUID).2 container
            (getRelationship w h creds url v.UUID).1.1.Destination.UUID).1 })
    (vs : List relationshipsRecord) (volData : List backupVolume) (h : List Call)
    (hsub : ∀ v ∈ vs, v ∈ records) (hacc : ∀ row ∈ volData, P h row)
    (rows : List backupVolume) (err : Option Error)
    (hres : (mapVolToBackupLoop w creds container url vs volData h).1 = .ret (rows, err)) :
    (err ≠ none → rows = []) ∧
      ∀ row ∈ rows, P (mapVolToBackupLoop w creds container url vs volData h).2 row := by
  induction vs generalizing volData h with
  | nil =>
    simp only [mapVolToBackupLoop, Outcome.ret.injEq, Prod.mk.injEq] at hres
    obtain ⟨hr, he⟩ := hres
    subst hr; subst he
    exact ⟨fun hne => absurd rfl hne, by simpa [mapVolToBackupLoop] using hacc⟩
  | cons v vs ih =>
    have hv : v ∈ records := hsub v (List.mem_cons_self _ _)
    have hsub1 : ∀ x ∈ vs, x ∈ records := fun x hx => hsub x (List.mem_cons_of_mem _ hx)
    have hg : h <+: (getRelationship w h creds url v.UUID).2 := by
      rw [getRelationship_history]; exact List.prefix_append _ _
    rcases mapVolToBackupLoop_cases w creds container url v vs volData h with
      ⟨_, heq⟩ | ⟨_, e, _, heq⟩ | ⟨_, _, _, heq⟩ | ⟨_, _, _, e, _, heq⟩ |
      ⟨_, _, _, _, _, heq⟩ | ⟨hp, hf, hid, hs, name, hn, heq⟩
    · rw [heq] at hres ⊢
      exact ih volData h hsub1 hacc hres
    · rw [heq] at hres ⊢
      simp only [Outcome.ret.injEq, Prod.mk.injEq] at hres
      obtain ⟨hr, _⟩ := hres
      subst hr
      exact ⟨fun _ => rfl, by simp⟩
    · rw [heq] at hres ⊢
      exact ih volData _ hsub1 (fun row hrow => hmono _ _ row hg (hacc row hrow)) hres
    · rw [heq] at hres ⊢
      simp only [Outcome.ret.injEq, Prod.mk.injEq] at hres
      obtain ⟨hr, _⟩ := hres
      subst hr
      exact ⟨fun _ => rfl, by simp⟩
    · rw [heq] at hres
      exact absurd hres (by simp)
    · rw [heq] at hres ⊢
      refine ih _ _ hsub1 ?_ hres
      intro row hrow
      rcases List.mem_append.mp hrow with hold | hfresh
      · exact hmono _ _ row (hg.trans (List.prefix_append _ _)) (hacc row hold)
      · rw [List.mem_singleton] at hfresh
        subst hfresh
        exact hnew v hv h name hp hf hid hs hn

/-- Trace: as soon as the world answers one of the calls of the loop with an
error, the loop returns that error and no rows. -/
theorem mapVolToBackupLoop_trace (w : World) (creds container url : String)
    (vs : List relationshipsRecord) (volData : List backupVolume) (h : List Call)
    (p : List Call) (x : Call) (e : Error) (hp : h <+: p)
    (hx : p ++ [x] <+: (mapVolToBackupLoop w creds container url vs volData h).2)
    (hfail : backupCallError w p x = some e) :
    (mapVolToBackupLoop w creds container url vs volData h).1 = .ret ([], some e) := by
  induction vs generalizing volData h with
  | nil =>
    simp only [mapVolToBackupLoop] at hx
    exact (history_no_room h p x hp hx).elim
  | cons v vs ih =>
    have hgh := getRelationship_history w h creds url v.UUID
    rcases mapVolToBackupLoop_cases w creds container url v vs volData h with
      ⟨_, heq⟩ | ⟨_, e0, hf, heq⟩ | ⟨_, hf, _, heq⟩ | ⟨_, hf, _, e0, hs, heq⟩ |
      ⟨_, hf, _, hs, _, heq⟩ | ⟨_, hf, _, hs, name, _, heq⟩
    · rw [heq] at hx ⊢
      exact ih volData h hp hx
    · rw [heq] at hx ⊢
      rw [hgh] at hx
      rcases history_next h p _ x _ hp hx (List.prefix_refl _) with ⟨hph, hxc⟩ | hlater
      · subst hph; subst hxc
        have : (getRelationship w p creds url v.UUID).1.2 = some e := hfail
        rw [hf] at this
        simp only [Option.some.injEq] at this
        rw [this]
      · exact (history_no_room _ p x hlater hx).elim
    · rw [heq] at hx ⊢
      have hcall : h ++ [Call.get creds (url ++ v.UUID)] <+:
          (mapVolToBackupLoop w creds container url vs volData
            (getRelationship w h creds url v.UUID).2).2 := by
        rw [← hgh]; exact mapVolToBackupLoop_history _ _ _ _ _ _ _
      rcases history_next h p _ x _ hp hx hcall with ⟨hph, hxc⟩ | hlater
      · subst hph; subst hxc
        have : (getRelationship w p creds url v.UUID).1.2 = some e := hfail
        rw [hf] at this
        exact absurd this (by simp)
      · rw [← hgh] at hlater
        exact ih volData _ hlater hx
    · rw [heq] at hx ⊢
      have hcall : h ++ [Call.get creds (url ++ v.UUID)] <+:
          (getRelationship w h creds url v.UUID).2 ++
            [Call.size container
              (getRelationship w h creds url v.UUID).1.1.Destination.UUID] := by
        rw [← hgh]; exact List.prefix_append _ _
      rcases history_next h p _ x _ hp hx hcall with ⟨hph, hxc⟩ | hlater
      · subst hph; subst hxc
        have : (getRelationship w p creds url v.UUID).1.2 = some e := hfail
        rw [hf] at this
        exact absurd this (by simp)
      · rw [← hgh] at hlater
        rcases history_next _ p _ x _ hlater hx (List.prefix_refl _) with ⟨hph, hxc⟩ | hlater2
        · subst hph; subst hxc
          have : (w.getStorageSize (getRelationship w h creds url v.UUID).2 container
              (getRelationship w h creds url v.UUID).1.1.Destination.UUID).2 = some e := hfail
          rw [hs] at this
          simp only [Option.some.injEq] at this
          rw [this]
        · exact (history_no_room _ p x hlater2 hx).elim
    · rw [heq] at hx
      have hcall : h ++ [Call.get creds (url ++ v.UUID)] <+:
          (getRelationship w h creds url v.UUID).2 ++
            [Call.size container
              (getRelationship w h creds url v.UUID).1.1.Destination.UUID] := by
        rw [← hgh]; exact List.prefix_append _ _
      rcases history_next h p _ x _ hp hx hcall with ⟨hph, hxc⟩ | hlater
      · subst hph; subst hxc
        have : (getRelationship w p creds url v.UUID).1.2 = some e := hfail
        rw [hf] at this
        exact absurd this (by simp)
      · rw [← hgh] at hlater
        rcases history_next _ p _ x _ hlater hx (List.prefix_refl _) with ⟨hph, hxc⟩ | hlater2
        · subst hph; subst hxc
          have : (w.getStorageSize (getRelationship w h creds url v.UUID).2 container
              (getRelationship w h creds url v.UUID).1.1.Destination.UUID).2 = some e := hfail
          rw [hs] at this
          exact absurd this (by simp)
        · exact (history_no_room _ p x hlater2 hx).elim
    · rw [heq] at hx ⊢
      have hcall2 : (getRelationship w h creds url v.UUID).2 ++
            [Call.size container
              (getRelationship w h creds url v.UUID).1.1.Destination.UUID] <+:
          (mapVolToBackupLoop w creds container url vs
            (volData ++ [{ Name := name,
                           UUID := (getRelationship w h creds url v.UUID).1.1.Destination.UUID,
                           Size := (w.getStorageSize (getRelationship w h creds url v.UUID).2
                             container
                             (getRelationship w h creds url v.UUID).1.1.Destination.UUID).1 }])
            ((getRelationship w h creds url v.UUID).2 ++
              [Call.size container
                (getRelationship w h creds url v.UUID).1.1.Destination.UUID])).2 :=
        mapVolToBackupLoop_history _ _ _ _ _ _ _
      have hcall := (List.prefix_append (getRelationship w h creds url v.UUID).2
        [Call.size container
          (getRelationship w h creds url v.UUID).1.1.Destination.UUID]).trans hcall2
      nth_rewrite 1 [hgh] at hcall
      rcases history_next h p _ x _ hp hx hcall with ⟨hph, hxc⟩ | hlater
      · subst hph; subst hxc
        have : (getRelationship w p creds url v.UUID).1.2 = some e := hfail
        rw [hf] at this
        exact absurd this (by simp)
      · rw [← hgh] at hlater
        rcases history_next _ p _ x _ hlater hx hcall2 with ⟨hph, hxc⟩ | hlater2
        · subst hph; subst hxc
          have : (w.getStorageSize (getRelationship w h creds url v.UUID).2 container
              (getRelationship w h creds url v.UUID).1.1.Destination.UUID).2 = some e := hfail
          rw [hs] at this
          exact absurd this (by simp)
        · exact ih _ _ hlater2 hx

/-! ## The loops of `mapVolToTiering` -/

theorem mapVolToTieringInner_skip (w : World) (container : String) (v1 : volume)
    (v2 : btUUID) (rest : List btUUID) (volData : List volumeData) (h : List Call)
    (hne : v1.UUID ≠ v2.VolUUID) :
    mapVolToTieringInner w container v1 (v2 :: rest) volData h =
      mapVolToTieringInner w container v1 rest volData h := by
  simp [mapVolToTieringInner, hne]

theorem mapVolToTieringInner_err (w : World) (container : String) (v1 : volume)
    (v2 : btUUID) (rest : List btUUID) (volData : List volumeData) (h : List Call)
    (err : Error) (heq : v1.UUID = v2.VolUUID)
    (hs : (w.getStorageSize h container v2.BuftreeUUID).2 = some err) :
    mapVolToTieringInner w container v1 (v2 :: rest) volData h =
      (.inl err, h ++ [Call.size container v2.BuftreeUUID]) := by
  simp [mapVolToTieringInner, heq, hs]

theorem mapVolToTieringInner_row (w : World) (container : String) (v1 : volume)
    (v2 : btUUID) (rest : List btUUID) (volData : List volumeData) (h : List Call)
    (heq : v1.UUID = v2.VolUUID)
    (hs : (w.getStorageSize h container v2.BuftreeUUID).2 = none) :
    mapVolToTieringInner w container v1 (v2 :: rest) volData h =
      mapVolToTieringInner w container v1 rest
        (volData ++ [{ Name := v1.Name, UUID := v2.BuftreeUUID,
                       Size := (w.getStorageSize h container v2.BuftreeUUID).1,
                       Server := v1.Server, Bucket := container }])
        (h ++ [Call.size container v2.BuftreeUUID]) := by
  simp [mapVolToTieringInner, heq, hs]

theorem mapVolToTieringLoop_abort (w : World) (container : String) (btus : List btUUID)
    (v1 : volume) (vs : List volume) (volData : List volumeData) (h : List Call)
    (err : Error)
    (hin : (mapVolToTieringInner w container v1 btus volData h).1 = .inl err) :
    mapVolToTieringLoop w container btus (v1 :: vs) volData h =
      (([], some err), (mapVolToTieringInner w container v1 btus volData h).2) := by
  rw [mapVolToTieringLoop]
  cases hr : mapVolToTieringInner w container v1 btus volData h with
  | mk a b =>
    rw [hr] at hin
    simp only at hin
    subst hin
    rfl

theorem mapVolToTieringLoop_next (w : World) (container : String) (btus : List btUUID)
    (v1 : volume) (vs : List volume) (volData volData1 : List volumeData) (h : List Call)
    (hin : (mapVolToTieringInner w container v1 btus volData h).1 = .inr volData1) :
    mapVolToTieringLoop w container btus (v1 :: vs) volData h =
      mapVolToTieringLoop w container btus vs volData1
        (mapVolToTieringInner w container v1 btus volData h).2 := by
  rw [mapVolToTieringLoop]
  cases hr : mapVolToTieringInner w container v1 btus volData h with
  | mk a b =>
    rw [hr] at hin
    simp only at hin
    subst hin
    rfl

theorem mapVolToTieringInner_history (w : World) (container : String) (v1 : volume)
    (btus : List btUUID) (volData : List volumeData) (h : List Call) :
    h <+: (mapVolToTieringInner w container v1 btus volData h).2 := by
  induction btus generalizing volData h with
  | nil => simp [mapVolToTieringInner]
  | cons v2 rest ih =>
    by_cases heq : v1.UUID = v2.VolUUID
    · cases hs : (w.getStorageSize h container v2.BuftreeUUID).2 with
      | some err =>
        rw [mapVolToTieringInner_err w container v1 v2 rest volData h err heq hs]
        exact List.prefix_append _ _
      | none =>
        rw [mapVolToTieringInner_row w container v1 v2 rest volData h heq hs]
        exact (List.prefix_append _ _).trans (ih _ _)
    · rw [mapVolToTieringInner_skip w container v1 v2 rest volData h heq]
      exact ih _ _

theorem mapVolToTieringLoop_history (w : World) (container : String) (btus : List btUUID)
    (vs : List volume) (volData : List volumeData) (h : List Call) :
    h <+: (mapVolToTieringLoop w container btus vs volData h).2 := by
  induction vs generalizing volData h with
  | nil => simp [mapVolToTieringLoop]
  | cons v1 vs ih =>
    have hin := mapVolToTieringInner_history w container v1 btus volData h
    cases hr : (mapVolToTieringInner w container v1 btus volData h).1 with
    | inl err =>
      rw [mapVolToTieringLoop_abort w container btus v1 vs volData h err hr]
      exact hin
    | inr volData1 =>
      rw [mapVolToTieringLoop_next w container btus v1 vs volData volData1 h hr]
      exact hin.trans (ih _ _)

/-- Rows of the inner loop: every row it hands on satisfies any property that
is stable under extending the history and that each fresh row satisfies. -/
theorem mapVolToTieringInner_rows (w : World) (container : String) (v1 : volume)
    (P : List Call → volumeData → Prop)
    (hmono : ∀ h1 h2 row, h1 <+: h2 → P h1 row → P h2 row)
    (all : List btUUID)
    (hnew : ∀ v2 ∈ all, ∀ h : List Call, v1.UUID = v2.VolUUID →
      (w.getStorageSize h container v2.BuftreeUUID).2 = none →
      P (h ++ [Call.size container v2.BuftreeUUID])
        { Name := v1.Name, UUID := v2.BuftreeUUID,
          Size := (w.getStorageSize h container v2.BuftreeUUID).1,
          Server := v1.Server, Bucket := container })
    (btus : List btUUID) (volData : List volumeData) (h : List Call)
    (hsub : ∀ v2 ∈ btus, v2 ∈ all) (hacc : ∀ row ∈ volData, P h row)
    (volData1 : List volumeData)
    (hres : (mapVolToTieringInner w container v1 btus volData h).1 = .inr volData1) :
    ∀ row ∈ volData1, P (mapVolToTieringInner w container v1 btus volData h).2 row := by
  induction btus generalizing volData h with
  | nil =>
    simp only [mapVolToTieringInner, Sum.inr.injEq] at hres
    subst hres
    simpa [mapVolToTieringInner] using hacc
  | cons v2 rest ih =>
    have hv2 : v2 ∈ all := hsub v2 (List.mem_cons_self _ _)
    have hsub1 : ∀ x ∈ rest, x ∈ all := fun x hx => hsub x (List.mem_cons_of_mem _ hx)
    by_cases heq : v1.UUID = v2.VolUUID
    · cases hs : (w.getStorageSize h container v2.BuftreeUUID).2 with
      | some err =>
        rw [mapVolToTieringInner_err w container v1 v2 rest volData h err heq hs] at hres
        exact absurd hres (by simp)
      | none =>
        rw [mapVolToTieringInner_row w container v1 v2 rest volData h heq hs] at hres ⊢
        refine ih _ _ hsub1 ?_ hres
        intro row hrow
        rcases List.mem_append.mp hrow with hold | hfresh
        · exact hmono _ _ row (List.prefix_append _ _) (hacc row hold)
        · rw [List.mem_singleton] at hfresh
          subst hfresh
          exact hnew v2 hv2 h heq hs
    · rw [mapVolToTieringInner_skip w container v1 v2 rest volData h heq] at hres ⊢
      exact ih _ _ hsub1 hacc hres

/-- Rows of `mapVolToTiering`: an error comes with no rows, and every returned
row satisfies any stable property that each fresh row satisfies. -/
theorem mapVolToTieringLoop_rows (w : World) (container : String) (btus : List btUUID)
    (P : List Call → volumeData → Prop)
    (hmono : ∀ h1 h2 row, h1 <+: h2 → P h1 row → P h2 row)
    (all : List volume)
    (hnew : ∀ v1 ∈ all, ∀ v2 ∈ btus, ∀ h : List Call, v1.UUID = v2.VolUUID →
      (w.getStorageSize h container v2.BuftreeUUID).2 = none →
      P (h ++ [Call.size container v2.BuftreeUUID])
        { Name := v1.Name, UUID := v2.BuftreeUUID,
          Size := (w.getStorageSize h container v2.BuftreeUUID).1,
          Server := v1.Server, Bucket := container })
    (vs : List volume) (volData : List volumeData) (h : List Call)
    (hsub : ∀ v1 ∈ vs, v1 ∈ all) (hacc : ∀ row ∈ volData, P h row) :
    ((mapVolToTieringLoop w container btus vs volData h).1.2 ≠ none →
        (mapVolToTieringLoop w container btus vs volData h).1.1 = []) ∧
      ∀ row ∈ (mapVolToTieringLoop w container btus vs volData h).1.1,
        P (mapVolToTieringLoop w container btus vs volData h).2 row := by
  induction vs generalizing volData h with
  | nil =>
    simp only [mapVolToTieringLoop]
    exact ⟨fun hne => absurd rfl hne, hacc⟩
  | cons v1 vs ih =>
    have hv1 : v1 ∈ all := hsub v1 (List.mem_cons_self _ _)
    have hsub1 : ∀ x ∈ vs, x ∈ all := fun x hx => hsub x (List.mem_cons_of_mem _ hx)
    cases hr : (mapVolToTieringInner w container v1 btus volData h).1 with
    | inl err =>
      rw [mapVolToTieringLoop_abort w container btus v1 vs volData h err hr]
      exact ⟨fun _ => rfl, by simp⟩
    | inr volData1 =>
      rw [mapVolToTieringLoop_next w container btus v1 vs volData volData1 h hr]
      exact ih _ _ hsub1
        (mapVolToTieringInner_rows w container v1 P hmono btus (hnew v1 hv1) btus volData h
          (fun _ hx => hx) hacc volData1 hr)

/-- Trace of the inner loop: as soon as the size lookup answers with an error,
the loop leaves the function with that error. -/
theorem mapVolToTieringInner_trace (w : World) (container : String) (v1 : volume)
    (btus : List btUUID) (volData : List volumeData) (h : List Call)
    (p : List Call) (c u : String) (e : Error) (hp : h <+: p)
    (hx : p ++ [Call.size c u] <+: (mapVolToTieringInner w container v1 btus volData h).2)
    (hfail : (w.getStorageSize p c u).2 = some e) :
    (mapVolToTieringInner w container v1 btus volData h).1 = .inl e := by
  induction btus generalizing volData h with
  | nil =>
    simp only [mapVolToTieringInner] at hx
    exact (history_no_room h p _ hp hx).elim
  | cons v2 rest ih =>
    by_cases heq : v1.UUID = v2.VolUUID
    · cases hs : (w.getStorageSize h container v2.BuftreeUUID).2 with
      | some err =>
        rw [mapVolToTieringInner_err w container v1 v2 rest volData h err heq hs] at hx ⊢
        rcases history_next h p _ _ _ hp hx (List.prefix_refl _) with ⟨hph, hxc⟩ | hlater
        · subst hph
          simp only [Call.size.injEq] at hxc
          obtain ⟨hc, hu⟩ := hxc
          subst hc; subst hu
          rw [hs] at hfail
          simp only [Option.some.injEq] at hfail
          rw [hfail]
        · exact (history_no_room _ p _ hlater hx).elim
      | none =>
        rw [mapVolToTieringInner_row w container v1 v2 rest volData h heq hs] at hx ⊢
        rcases history_next h p _ _ _ hp hx
            (mapVolToTieringInner_history w container v1 rest _ _) with ⟨hph, hxc⟩ | hlater
        · subst hph
          simp only [Call.size.injEq] at hxc
          obtain ⟨hc, hu⟩ := hxc
          subst hc; subst hu
          rw [hs] at hfail
          exact absurd hfail (by simp)
        · exact ih _ _ hlater hx
    · rw [mapVolToTieringInner_skip w container v1 v2 rest volData h heq] at hx ⊢
      exact ih _ _ hp hx

/-- Trace of `mapVolToTiering`: as soon as the size lookup answers with an
error, the function returns that error and no rows. -/
theorem mapVolToTieringLoop_trace (w : World) (container : String) (btus : List btUUID)
    (vs : List volume) (volData : List volumeData) (h : List Call)
    (p : List Call) (c u : String) (e : Error) (hp : h <+: p)
    (hx : p ++ [Call.size c u] <+: (mapVolToTieringLoop w container btus vs volData h).2)
    (hfail : (w.getStorageSize p c u).2 = some e) :
    (mapVolToTieringLoop w container btus vs volData h).1 = ([], some e) := by
  induction vs generalizing volData h with
  | nil =>
    simp only [mapVolToTieringLoop] at hx
    exact (history_no_room h p _ hp hx).elim
  | cons v1 vs ih =>
    cases hr : (mapVolToTieringInner w container v1 btus volData h).1 with
    | inl err =>
      rw [mapVolToTieringLoop_abort w container btus v1 vs volData h err hr] at hx ⊢
      have := mapVolToTieringInner_trace w container v1 btus volData h p c u e hp hx hfail
      rw [hr] at this
      simp only [Sum.inl.injEq] at this
      rw [this]
    | inr volData1 =>
      rw [mapVolToTieringLoop_next w container btus v1 vs volData volData1 h hr] at hx ⊢
      by_cases hin : p ++ [Call.size c u] <+:
          (mapVolToTieringInner w container v1 btus volData h).2
      · have := mapVolToTieringInner_trace w container v1 btus volData h p c u e hp hin hfail
        rw [hr] at this
        exact absurd this (by simp)
      · have hlen : (mapVolToTieringInner w container v1 btus volData h).2.length ≤ p.length := by
          by_contra hlt
          exact hin (List.prefix_of_prefix_length_le hx
            (mapVolToTieringLoop_history w container btus vs volData1 _)
            (by simp; omega))
        have hlater : (mapVolToTieringInner w container v1 btus volData h).2 <+: p :=
          List.prefix_of_prefix_length_le
            (mapVolToTieringLoop_history w container btus vs volData1 _)
            ((List.prefix_append p _).trans hx) hlen
        exact ih _ _ hlater hx

/-! ## The join of `mapVolToTiering` -/

theorem mapVolToTieringInner_join (w : World) (container : String) (v1 : volume)
    (hok : ∀ h c u, (w.getStorageSize h c u).2 = none)
    (btus : List btUUID) (volData : List volumeData) (h : List Call) :
    ∃ volData1, (mapVolToTieringInner w container v1 btus volData h).1 = .inr volData1 ∧
      volData1.map (fun r => (r.Name, r.UUID, r.Server, r.Bucket)) =
        volData.map (fun r => (r.Name, r.UUID, r.Server, r.Bucket)) ++
          (btus.filter (fun v2 => decide (v1.UUID = v2.VolUUID))).map
            (fun v2 => (v1.Name, v2.BuftreeUUID, v1.Server, container)) := by
  induction btus generalizing volData h with
  | nil => exact ⟨volData, by simp [mapVolToTieringInner]⟩
  | cons v2 rest ih =>
    by_cases heq : v1.UUID = v2.VolUUID
    · rw [mapVolToTieringInner_row w container v1 v2 rest volData h heq (hok _ _ _)]
      obtain ⟨volData1, h1, h2⟩ := ih
        (volData ++ [{ Name := v1.Name, UUID := v2.BuftreeUUID,
                       Size := (w.getStorageSize h container v2.BuftreeUUID).1,
                       Server := v1.Server, Bucket := container }])
        (h ++ [Call.size container v2.BuftreeUUID])
      exact ⟨volData1, h1, by simp [h2, heq]⟩
    · rw [mapVolToTieringInner_skip w container v1 v2 rest volData h heq]
      obtain ⟨volData1, h1, h2⟩ := ih volData h
      exact ⟨volData1, h1, by simp [h2, heq]⟩

theorem mapVolToTieringLoop_join (w : World) (container : String) (btus : List btUUID)
    (hok : ∀ h c u, (w.getStorageSize h c u).2 = none)
    (vs : List volume) (volData : List volumeData) (h : List Call) :
    (mapVolToTieringLoop w container btus vs volData h).1.2 = none ∧
      (mapVolToTieringLoop w container btus vs volData h).1.1.map
          (fun r => (r.Name, r.UUID, r.Server, r.Bucket)) =
        volData.map (fun r => (r.Name, r.UUID, r.Server, r.Bucket)) ++
          ((List.product vs btus).filter (fun pr => decide (pr.1.UUID = pr.2.VolUUID))).map
            (fun pr => (pr.1.Name, pr.2.BuftreeUUID, pr.1.Server, container)) := by
  induction vs generalizing volData h with
  | nil => simp [mapVolToTieringLoop]
  | cons v1 vs ih =>
    obtain ⟨volData1, h1, h2⟩ := mapVolToTieringInner_join w container v1 hok btus volData h
    rw [mapVolToTieringLoop_next w container btus v1 vs volData volData1 h h1]
    obtain ⟨h3, h4⟩ := ih volData1 (mapVolToTieringInner w container v1 btus volData h).2
    refine ⟨h3, ?_⟩
    have hprod : List.product (v1 :: vs) btus =
        List.map (fun b => (v1, b)) btus ++ List.product vs btus :=
      List.product_cons v1 vs btus
    rw [h4, h2, hprod, List.filter_append, List.map_append, List.append_assoc]
    congr 2
    simp [List.filter_map, List.map_map, Function.comp_def]

theorem mapVolToTieringInner_no_match (w : World) (container : String) (v1 : volume)
    (btus : List btUUID) (volData : List volumeData) (h : List Call)
    (hno : ∀ v2 ∈ btus, v1.UUID ≠ v2.VolUUID) :
    mapVolToTieringInner w container v1 btus volData h = (.inr volData, h) := by
  induction btus with
  | nil => rfl
  | cons v2 rest ih =>
    rw [mapVolToTieringInner_skip w container v1 v2 rest volData h
      (hno v2 (List.mem_cons_self _ _))]
    exact ih (fun x hx => hno x (List.mem_cons_of_mem _ hx))

theorem mapVolToTieringLoop_no_match (w : World) (container : String) (btus : List btUUID)
    (vs : List volume) (volData : List volumeData) (h : List Call)
    (hno : ∀ v1 ∈ vs, ∀ v2 ∈ btus, v1.UUID ≠ v2.VolUUID) :
    mapVolToTieringLoop w container btus vs volData h = ((volData, none), h) := by
  induction vs with
  | nil => rfl
  | cons v1 vs ih =>
    have hin := mapVolToTieringInner_no_match w container v1 btus volData h
      (hno v1 (List.mem_cons_self _ _))
    rw [mapVolToTieringLoop_next w container btus v1 vs volData volData h (by rw [hin]), hin]
    exact ih (fun x hx => hno x (List.mem_cons_of_mem _ hx))

/-! ## Further facts about the loop of `mapVolToBackup` -/

theorem mapVolToBackupLoop_append (w : World) (creds container url : String)
    (pre post : List relationshipsRecord) (volData rows : List backupVolume)
    (h h1 : List Call)
    (hpre : mapVolToBackupLoop w creds container url pre volData h = (.ret (rows, none), h1)) :
    mapVolToBackupLoop w creds container url (pre ++ post) volData h =
      mapVolToBackupLoop w creds container url post rows h1 := by
  induction pre generalizing volData h with
  | nil =>
    simp only [mapVolToBackupLoop, Prod.mk.injEq, Outcome.ret.injEq] at hpre
    obtain ⟨⟨hr, _⟩, hh⟩ := hpre
    subst hr; subst hh
    rfl
  | cons v vs ih =>
    rw [List.cons_append]
    rcases mapVolToBackupLoop_cases w creds container url v vs volData h with
      ⟨hp, heq⟩ | ⟨_, e, _, heq⟩ | ⟨hp, hf, hid, heq⟩ | ⟨_, _, _, e, _, heq⟩ |
      ⟨_, _, _, _, _, heq⟩ | ⟨hp, hf, hid, hs, name, hn, heq⟩
    · rw [heq] at hpre
      rw [mapVolToBackupLoop_skip w creds container url v _ volData h hp]
      exact ih _ _ hpre
    · rw [heq] at hpre
      exact absurd hpre (by simp)
    · rw [heq] at hpre
      rw [mapVolToBackupLoop_mismatch w creds container url v _ volData h hp hf hid]
      exact ih _ _ hpre
    · rw [heq] at hpre
      exact absurd hpre (by simp)
    · rw [heq] at hpre
      exact absurd hpre (by simp)
    · rw [heq] at hpre
      rw [mapVolToBackupLoop_row w creds container url v _ volData h name hp hf hid hs hn]
      exact ih _ _ hpre

theorem mapVolToTieringInner_append (w : World) (container : String) (v1 : volume)
    (pre post : List btUUID) (volData rows : List volumeData) (h h1 : List Call)
    (hpre : mapVolToTieringInner w container v1 pre volData h = (.inr rows, h1)) :
    mapVolToTieringInner w container v1 (pre ++ post) volData h =
      mapVolToTieringInner w container v1 post rows h1 := by
  induction pre generalizing volData h with
  | nil =>
    simp only [mapVolToTieringInner, Prod.mk.injEq, Sum.inr.injEq] at hpre
    obtain ⟨hr, hh⟩ := hpre
    subst hr; subst hh
    rfl
  | cons v2 rest ih =>
    rw [List.cons_append]
    by_cases heq : v1.UUID = v2.VolUUID
    · cases hs : (w.getStorageSize h container v2.BuftreeUUID).2 with
      | some err =>
        rw [mapVolToTieringInner_err w container v1 v2 rest volData h err heq hs] at hpre
        exact absurd hpre (by simp)
      | none =>
        rw [mapVolToTieringInner_row w container v1 v2 rest volData h heq hs] at hpre
        rw [mapVolToTieringInner_row w container v1 v2 _ volData h heq hs]
        exact ih _ _ hpre
    · rw [mapVolToTieringInner_skip w container v1 v2 rest volData h heq] at hpre
      rw [mapVolToTieringInner_skip w container v1 v2 _ volData h heq]
      exact ih _ _ hpre

theorem mapVolToTieringLoop_append (w : World) (container : String) (btus : List btUUID)
    (pre post : List volume) (volData rows : List volumeData) (h h1 : List Call)
    (hpre : mapVolToTieringLoop w container btus pre volData h = ((rows, none), h1)) :
    mapVolToTieringLoop w container btus (pre ++ post) volData h =
      mapVolToTieringLoop w container btus post rows h1 := by
  induction pre generalizing volData h with
  | nil =>
    simp only [mapVolToTieringLoop, Prod.mk.injEq, and_true] at hpre
    obtain ⟨hr, hh⟩ := hpre
    subst hr; subst hh
    rfl
  | cons v1 vs ih =>
    rw [List.cons_append]
    cases hr : (mapVolToTieringInner w container v1 btus volData h).1 with
    | inl err =>
      rw [mapVolToTieringLoop_abort w container btus v1 vs volData h err hr] at hpre
      exact absurd hpre (by simp)
    | inr volData1 =>
      rw [mapVolToTieringLoop_next w container btus v1 vs volData volData1 h hr] at hpre
      rw [mapVolToTieringLoop_next w container btus v1 _ volData volData1 h hr]
      exact ih _ _ hpre

/-! # The claims -/

/-- C4.  After a successful fetch of the relationship summaries,
`getRelationships` returns as container the text before the first `:` of the
destination path of the first record, in list order, whose destination path
starts with `netapp-backup` (the whole path when it has no `:`), and the empty
string when no record has such a path. -/
theorem c4_container_inference (w : World) (h : List Call) (creds cluster : String)
    (hfetch : (w.fetchRelationships h creds
      ("https://" ++ cluster ++ "/api/snapmirror/relationships/")).2 = none) :
    (getRelationships w h creds cluster).1 =
      .ret ((match (w.fetchRelationships h creds
            ("https://" ++ cluster ++ "/api/snapmirror/relationships/")).1.Records.find?
              (fun v => HasPrefix v.Destination.Path "netapp-backup") with
          | some v => String.mk (v.Destination.Path.data.takeWhile (fun c => c != ':'))
          | none => ""),
        "https://" ++ cluster ++ "/api/snapmirror/relationships/",
        (w.fetchRelationships h creds
          ("https://" ++ cluster ++ "/api/snapmirror/relationships/")).1, none) := by
  rw [getRelationships_ok w h creds cluster hfetch]
  rfl

/-- C6.  After a successful fetch of the volumes, `getVolList` returns no
error and exactly the fetched volumes, in their original order and unchanged,
whose owning server equals `"svm_" + clusterName` and whose name does not
start with `svm_`: a volume is in the result if and only if it was fetched and
passes both tests. -/
theorem c6_volume_filter (w : World) (h : List Call) (creds cluster clusterName : String)
    (hfetch : (getVolumes w h creds cluster).1.2 = none) :
    (getVolList w h creds cluster clusterName).1.2 = none ∧
      (getVolList w h creds cluster clusterName).1.1 =
        (getVolumes w h creds cluster).1.1.Records.filter (fun v =>
          decide (v.Server = "svm_" ++ clusterName) && !HasPrefix v.Name "svm_") ∧
      (∀ v, v ∈ (getVolList w h creds cluster clusterName).1.1 ↔
        v ∈ (getVolumes w h creds cluster).1.1.Records ∧
          v.Server = "svm_" ++ clusterName ∧ HasPrefix v.Name "svm_" = false) ∧
      List.Sublist (getVolList w h creds cluster clusterName).1.1
        (getVolumes w h creds cluster).1.1.Records := by
  have hres : (getVolList w h creds cluster clusterName).1 =
      ((getVolumes w h creds cluster).1.1.Records.filter (fun v =>
          decide (v.Server = "svm_" ++ clusterName) && !HasPrefix v.Name "svm_"), none) := by
    simp [getVolList, hfetch, getVolListLoop_eq]
  rw [hres]
  refine ⟨rfl, rfl, ?_, List.filter_sublist _⟩
  intro v
  simp [List.mem_filter]

/-- C7.  When the loop of `mapVolToBackup` reaches a summary that passes the
prefix test and whose detail is fetched without error but carries an id
different from the summary's id, it goes on with the remaining summaries with
the same rows, and the only call it has made for that summary is the detail
fetch (no size lookup); so no row and no error come from that summary.  The
same holds inside a whole run: if the summaries before it were processed
without error, the run continues with the remaining summaries from the rows
built so far. -/
theorem c7_id_mismatch_skipped (w : World) (creds container url : String)
    (v : relationshipsRecord) (post : List relationshipsRecord)
    (volData : List backupVolume) (h : List Call)
    (hp : HasPrefix v.Destination.Path container = true)
    (hf : (getRelationship w h creds url v.UUID).1.2 = none)
    (hid : (getRelationship w h creds url v.UUID).1.1.UUID ≠ v.UUID) :
    mapVolToBackupLoop w creds container url (v :: post) volData h =
        mapVolToBackupLoop w creds container url post volData
          (h ++ [Call.get creds (url ++ v.UUID)]) ∧
      ∀ (pre : List relationshipsRecord) (h0 : List Call),
        mapVolToBackupLoop w creds container url pre [] h0 = (.ret (volData, none), h) →
        mapVolToBackup w h0 creds container url ⟨pre ++ v :: post⟩ =
          mapVolToBackupLoop w creds container url post volData
            (h ++ [Call.get creds (url ++ v.UUID)]) := by
  have hstep := mapVolToBackupLoop_mismatch w creds container url v post volData h hp hf hid
  rw [getRelationship_history] at hstep
  refine ⟨hstep, ?_⟩
  intro pre h0 hpre
  rw [mapVolToBackup, mapVolToBackupLoop_append w creds container url pre (v :: post) [] volData
    h0 h hpre, hstep]

/-- C9.  For a summary that passes the prefix test and whose detail `r` is
fetched without error with the summary's id: the lookup of the second segment
of the split source path is in range exactly when the source path contains a
`:`; when it does and the size lookup succeeds, the loop of `mapVolToBackup`
appends the row whose name is the second `:`-separated segment of the source
path and goes on; when it does not, the summary is not skipped and yields no
row: the run panics after a successful size lookup, and returns the error of a
failed one. -/
theorem c9_volume_name (w : World) (creds container url : String)
    (v : relationshipsRecord) (vs : List relationshipsRecord)
    (volData : List backupVolume) (h : List Call) (r : relationship)
    (hp : HasPrefix v.Destination.Path container = true)
    (hr : (getRelationship w h creds url v.UUID).1 = (r, none))
    (hid : r.UUID = v.UUID) :
    (((Split r.Source.Path ':')[1]?).isSome = true ↔ ':' ∈ r.Source.Path.data) ∧
    (':' ∈ r.Source.Path.data → ∀ size : String,
      w.getStorageSize (h ++ [Call.get creds (url ++ v.UUID)]) container r.Destination.UUID =
        (size, none) →
      mapVolToBackupLoop w creds container url (v :: vs) volData h =
        mapVolToBackupLoop w creds container url vs
          (volData ++ [{ Name := secondSegment r.Source.Path, UUID := r.Destination.UUID,
                         Size := size }])
          (h ++ [Call.get creds (url ++ v.UUID)] ++
            [Call.size container r.Destination.UUID])) ∧
    (':' ∉ r.Source.Path.data → ∀ size : String,
      w.getStorageSize (h ++ [Call.get creds (url ++ v.UUID)]) container r.Destination.UUID =
        (size, none) →
      mapVolToBackupLoop w creds container url (v :: vs) volData h =
        (.panic, h ++ [Call.get creds (url ++ v.UUID)] ++
          [Call.size container r.Destination.UUID])) ∧
    (':' ∉ r.Source.Path.data → ∀ (size : String) (err : Error),
      w.getStorageSize (h ++ [Call.get creds (url ++ v.UUID)]) container r.Destination.UUID =
        (size, some err) →
      mapVolToBackupLoop w creds container url (v :: vs) volData h =
        (.ret ([], some err), h ++ [Call.get creds (url ++ v.UUID)] ++
          [Call.size container r.Destination.UUID])) := by
  have hgh := getRelationship_history w h creds url v.UUID
  have hf : (getRelationship w h creds url v.UUID).1.2 = none := by rw [hr]
  have hr1 : (getRelationship w h creds url v.UUID).1.1 = r := by rw [hr]
  have hid1 : (getRelationship w h creds url v.UUID).1.1.UUID = v.UUID := by rw [hr1]; exact hid
  refine ⟨?_, ?_, ?_, ?_⟩
  · rw [Split_one]
    by_cases hc : ':' ∈ r.Source.Path.data <;> simp [hc]
  · intro hc size hs
    have hs1 : (w.getStorageSize (getRelationship w h creds url v.UUID).2 container
        (getRelationship w h creds url v.UUID).1.1.Destination.UUID).2 = none := by
      rw [hgh, hr1, hs]
    have hn : (Split (getRelationship w h creds url v.UUID).1.1.Source.Path ':')[1]? =
        some (secondSegment r.Source.Path) := by
      rw [hr1, Split_one, if_pos hc]; rfl
    rw [mapVolToBackupLoop_row w creds container url v vs volData h _ hp hf hid1 hs1 hn,
      hgh, hr1, hs]
  · intro hc size hs
    have hs1 : (w.getStorageSize (getRelationship w h creds url v.UUID).2 container
        (getRelationship w h creds url v.UUID).1.1.Destination.UUID).2 = none := by
      rw [hgh, hr1, hs]
    have hn : (Split (getRelationship w h creds url v.UUID).1.1.Source.Path ':')[1]? = none := by
      rw [hr1, Split_one, if_neg hc]
    rw [mapVolToBackupLoop_panic w creds container url v vs volData h hp hf hid1 hs1 hn,
      hgh, hr1]
  · intro _ size err hs
    have hs1 : (w.getStorageSize (getRelationship w h creds url v.UUID).2 container
        (getRelationship w h creds url v.UUID).1.1.Destination.UUID).2 = some err := by
      rw [hgh, hr1, hs]
    rw [mapVolToBackupLoop_size_err w creds container url v vs volData h err hp hf hid1 hs1,
      hgh, hr1]

/-- C10.  Every row returned by `mapVolToBackup` has as id the destination id
of a relationship detail that was fetched without error for one of the
summaries and carried that summary's id, and that same id is what was passed to
the size lookup right after the fetch.  Every row returned by
`mapVolToTiering` has as id the buftree id of a mapping joined to a volume on
the volume id, takes its name and server from that volume, and has as bucket
the container passed in. -/
theorem c10_row_identifier (w : World) (h : List Call) (creds container url : String)
    (rel : relationships) (vols : List volume) (btus : List btUUID) :
    (∀ rows : List backupVolume,
      (mapVolToBackup w h creds container url rel).1 = .ret (rows, none) →
      ∀ row ∈ rows, ∃ v ∈ rel.Records, ∃ (p : List Call) (r : relationship),
        p ++ [Call.get creds (url ++ v.UUID), Call.size container row.UUID] <+:
          (mapVolToBackup w h creds container url rel).2 ∧
        (getRelationship w p creds url v.UUID).1 = (r, none) ∧
        r.UUID = v.UUID ∧ row.UUID = r.Destination.UUID) ∧
    (∀ row ∈ (mapVolToTiering w h container vols btus).1.1,
      row.Bucket = container ∧
      ∃ v1 ∈ vols, ∃ v2 ∈ btus, v1.UUID = v2.VolUUID ∧ row.UUID = v2.BuftreeUUID ∧
        row.Name = v1.Name ∧ row.Server = v1.Server ∧
        ∃ p : List Call, p ++ [Call.size container v2.BuftreeUUID] <+:
          (mapVolToTiering w h container vols btus).2) := by
  constructor
  · intro rows hres
    refine (mapVolToBackupLoop_rows w creds container url rel.Records
      (fun hist row => ∃ v ∈ rel.Records, ∃ (p : List Call) (r : relationship),
        p ++ [Call.get creds (url ++ v.UUID), Call.size container row.UUID] <+: hist ∧
        (getRelationship w p creds url v.UUID).1 = (r, none) ∧
        r.UUID = v.UUID ∧ row.UUID = r.Destination.UUID)
      ?_ ?_ rel.Records [] h (fun _ hv => hv) (by simp) rows none hres).2
    · rintro h1 h2 row h12 ⟨v, hv, p, r, hpre, hrest⟩
      exact ⟨v, hv, p, r, hpre.trans h12, hrest⟩
    · intro v hv h0 name _ hf hid _ _
      refine ⟨v, hv, h0, (getRelationship w h0 creds url v.UUID).1.1, ?_, ?_, hid, rfl⟩
      · rw [getRelationship_history]
        simp
      · exact Prod.ext rfl hf
  · refine (mapVolToTieringLoop_rows w container btus
      (fun hist row => row.Bucket = container ∧
        ∃ v1 ∈ vols, ∃ v2 ∈ btus, v1.UUID = v2.VolUUID ∧ row.UUID = v2.BuftreeUUID ∧
          row.Name = v1.Name ∧ row.Server = v1.Server ∧
          ∃ p : List Call, p ++ [Call.size container v2.BuftreeUUID] <+: hist)
      ?_ vols ?_ vols [] h (fun _ hv => hv) (by simp)).2
    · rintro h1 h2 row h12 ⟨hb, v1, hv1, v2, hv2, he, hu, hn, hs, p, hpre⟩
      exact ⟨hb, v1, hv1, v2, hv2, he, hu, hn, hs, p, hpre.trans h12⟩
    · intro v1 hv1 v2 hv2 h0 he _
      exact ⟨rfl, v1, hv1, v2, hv2, he, rfl, rfl, rfl, h0, List.prefix_refl _⟩

/-- C8.  No partial success in `mapVolToBackup` and `mapVolToTiering`.
Candidate by candidate: when a run has processed the summaries before a
candidate without error (whatever rows it has built), and the world answers
that candidate's detail fetch, or its size lookup, with an error, then
`mapVolToBackup` makes that call and returns exactly that error with the empty
row list; likewise `mapVolToTiering` for the size lookup of a joined pair.  On
the trace: any call of a run answered with an error gives that result; a
returned error always comes with the empty row list; and every row of a
returned list carries the size that a size lookup of the run, made for the
row's container and id, returned without error. -/
theorem c8_error_discards_rows (w : World) (h : List Call) (creds container url : String)
    (rel : relationships) (vols : List volume) (btus : List btUUID) :
    (∀ (pre post : List relationshipsRecord) (v : relationshipsRecord)
        (volData : List backupVolume) (h1 : List Call) (err : Error),
      mapVolToBackupLoop w creds container url pre [] h = (.ret (volData, none), h1) →
      HasPrefix v.Destination.Path container = true →
      (getRelationship w h1 creds url v.UUID).1.2 = some err →
      mapVolToBackup w h creds container url ⟨pre ++ v :: post⟩ =
        (.ret ([], some err), h1 ++ [Call.get creds (url ++ v.UUID)])) ∧
    (∀ (pre post : List relationshipsRecord) (v : relationshipsRecord)
        (volData : List backupVolume) (h1 : List Call) (r : relationship) (err : Error),
      mapVolToBackupLoop w creds container url pre [] h = (.ret (volData, none), h1) →
      HasPrefix v.Destination.Path container = true →
      (getRelationship w h1 creds url v.UUID).1 = (r, none) →
      r.UUID = v.UUID →
      (w.getStorageSize (h1 ++ [Call.get creds (url ++ v.UUID)]) container
        r.Destination.UUID).2 = some err →
      mapVolToBackup w h creds container url ⟨pre ++ v :: post⟩ =
        (.ret ([], some err), h1 ++ [Call.get creds (url ++ v.UUID)] ++
          [Call.size container r.Destination.UUID])) ∧
    (∀ (preV postV : List volume) (v1 : volume) (preB postB : List btUUID) (v2 : btUUID)
        (rows1 rows2 : List volumeData) (h1 h2 : List Call) (err : Error),
      mapVolToTieringLoop w container (preB ++ v2 :: postB) preV [] h = ((rows1, none), h1) →
      mapVolToTieringInner w container v1 preB rows1 h1 = (.inr rows2, h2) →
      v1.UUID = v2.VolUUID →
      (w.getStorageSize h2 container v2.BuftreeUUID).2 = some err →
      mapVolToTiering w h container (preV ++ v1 :: postV) (preB ++ v2 :: postB) =
        (([], some err), h2 ++ [Call.size container v2.BuftreeUUID])) ∧
    (∀ (p : List Call) (x : Call) (e : Error), h <+: p →
      p ++ [x] <+: (mapVolToBackup w h creds container url rel).2 →
      backupCallError w p x = some e →
      (mapVolToBackup w h creds container url rel).1 = .ret ([], some e)) ∧
    (∀ (rows : List backupVolume) (err : Option Error),
      (mapVolToBackup w h creds container url rel).1 = .ret (rows, err) →
      (err ≠ none → rows = []) ∧
      ∀ row ∈ rows, ∃ p : List Call,
        p ++ [Call.size container row.UUID] <+:
          (mapVolToBackup w h creds container url rel).2 ∧
        w.getStorageSize p container row.UUID = (row.Size, none)) ∧
    (∀ (p : List Call) (c u : String) (e : Error), h <+: p →
      p ++ [Call.size c u] <+: (mapVolToTiering w h container vols btus).2 →
      (w.getStorageSize p c u).2 = some e →
      (mapVolToTiering w h container vols btus).1 = ([], some e)) ∧
    ((mapVolToTiering w h container vols btus).1.2 ≠ none →
      (mapVolToTiering w h container vols btus).1.1 = []) ∧
    (∀ row ∈ (mapVolToTiering w h container vols btus).1.1, ∃ p : List Call,
      p ++ [Call.size container row.UUID] <+: (mapVolToTiering w h container vols btus).2 ∧
      w.getStorageSize p container row.UUID = (row.Size, none)) := by
  refine ⟨?_, ?_, ?_, ?_, ?_, ?_, ?_⟩
  · intro pre post v volData h1 err hpre hp hf
    rw [mapVolToBackup, mapVolToBackupLoop_append w creds container url pre (v :: post) []
      volData h h1 hpre,
      mapVolToBackupLoop_fetch_err w creds container url v post volData h1 err hp hf,
      getRelationship_history]
  · intro pre post v volData h1 r err hpre hp hr hid hs
    have hgh := getRelationship_history w h1 creds url v.UUID
    have hf : (getRelationship w h1 creds url v.UUID).1.2 = none := by rw [hr]
    have hr1 : (getRelationship w h1 creds url v.UUID).1.1 = r := by rw [hr]
    have hid1 : (getRelationship w h1 creds url v.UUID).1.1.UUID = v.UUID := by
      rw [hr1]; exact hid
    have hs1 : (w.getStorageSize (getRelationship w h1 creds url v.UUID).2 container
        (getRelationship w h1 creds url v.UUID).1.1.Destination.UUID).2 = some err := by
      rw [hgh, hr1, hs]
    rw [mapVolToBackup, mapVolToBackupLoop_append w creds container url pre (v :: post) []
      volData h h1 hpre,
      mapVolToBackupLoop_size_err w creds container url v post volData h1 err hp hf hid1 hs1,
      hgh, hr1]
  · intro preV postV v1 preB postB v2 rows1 rows2 h1 h2 err hpreV hpreB heq hs
    have hinner : mapVolToTieringInner w container v1 (preB ++ v2 :: postB) rows1 h1 =
        (.inl err, h2 ++ [Call.size container v2.BuftreeUUID]) := by
      rw [mapVolToTieringInner_append w container v1 preB (v2 :: postB) rows1 rows2 h1 h2 hpreB,
        mapVolToTieringInner_err w container v1 v2 postB rows2 h2 err heq hs]
    rw [mapVolToTiering, mapVolToTieringLoop_append w container (preB ++ v2 :: postB) preV
      (v1 :: postV) [] rows1 h h1 hpreV,
      mapVolToTieringLoop_abort w container (preB ++ v2 :: postB) v1 postV rows1 h1 err
        (by rw [hinner]), hinner]
  · intro p x e hp hx hfail
    exact mapVolToBackupLoop_trace w creds container url rel.Records [] h p x e hp hx hfail
  · intro rows err hres
    refine mapVolToBackupLoop_rows w creds container url rel.Records
      (fun hist row => ∃ p : List Call, p ++ [Call.size container row.UUID] <+: hist ∧
        w.getStorageSize p container row.UUID = (row.Size, none))
      ?_ ?_ rel.Records [] h (fun _ hv => hv) (by simp) rows err hres
    · rintro h1 h2 row h12 ⟨p, hpre, hs⟩
      exact ⟨p, hpre.trans h12, hs⟩
    · intro v _ h0 name _ _ _ hs _
      exact ⟨_, List.prefix_refl _, Prod.ext rfl hs⟩
  · intro p c u e hp hx hfail
    exact mapVolToTieringLoop_trace w container btus vols [] h p c u e hp hx hfail
  · refine mapVolToTieringLoop_rows w container btus
      (fun hist row => ∃ p : List Call, p ++ [Call.size container row.UUID] <+: hist ∧
        w.getStorageSize p container row.UUID = (row.Size, none))
      ?_ vols ?_ vols [] h (fun _ hv => hv) (by simp)
    · rintro h1 h2 row h12 ⟨p, hpre, hs⟩
      exact ⟨p, hpre.trans h12, hs⟩
    · intro v1 _ v2 _ h0 _ hs
      exact ⟨_, List.prefix_refl _, Prod.ext rfl hs⟩

theorem product_filter_length (vols : List volume) (btus : List btUUID)
    (f : volume × btUUID → Bool) :
    ((List.product vols btus).filter f).length =
      (vols.map (fun v1 => btus.countP (fun v2 => f (v1, v2)))).sum := by
  induction vols with
  | nil => simp
  | cons v1 vs ih =>
    have hprod : List.product (v1 :: vs) btus =
        List.map (fun b => (v1, b)) btus ++ List.product vs btus :=
      List.product_cons v1 vs btus
    rw [hprod, List.filter_append, List.length_append, ih, List.map_cons, List.sum_cons,
      List.filter_map, List.length_map, List.countP_eq_length_filter]
    rfl

/-- C5.  With a size lookup that always succeeds, `mapVolToTiering` returns no
error and exactly the inner join of the volumes and the mappings on
`volume.UUID == mapping.VolUUID`, in loop order: apart from the sizes, the rows
are the pairs of the cartesian product with equal ids.  So the number of rows
is the number of such pairs, which is the sum over the volumes of the number
of mappings with that volume's id: none for a volume without a mapping or a
mapping without a volume, k for a volume with k mappings. -/
theorem c5_inner_join (w : World) (h : List Call) (container : String)
    (vols : List volume) (btus : List btUUID)
    (hok : ∀ (h1 : List Call) (c u : String), (w.getStorageSize h1 c u).2 = none) :
    (mapVolToTiering w h container vols btus).1.2 = none ∧
    (mapVolToTiering w h container vols btus).1.1.map
        (fun r => (r.Name, r.UUID, r.Server, r.Bucket)) =
      ((List.product vols btus).filter (fun pr => decide (pr.1.UUID = pr.2.VolUUID))).map
        (fun pr => (pr.1.Name, pr.2.BuftreeUUID, pr.1.Server, container)) ∧
    (mapVolToTiering w h container vols btus).1.1.length =
      ((List.product vols btus).filter (fun pr => decide (pr.1.UUID = pr.2.VolUUID))).length ∧
    (mapVolToTiering w h container vols btus).1.1.length =
      (vols.map (fun v1 => btus.countP (fun v2 => decide (v1.UUID = v2.VolUUID)))).sum := by
  obtain ⟨h1, h2⟩ := mapVolToTieringLoop_join w container btus hok vols [] h
  simp only [List.map_nil, List.nil_append] at h2
  have hlen : (mapVolToTiering w h container vols btus).1.1.length =
      ((List.product vols btus).filter
        (fun pr => decide (pr.1.UUID = pr.2.VolUUID))).length := by
    have := congrArg List.length h2
    simpa using this
  refine ⟨h1, h2, hlen, ?_⟩
  rw [hlen, product_filter_length]

/-- C2, as amended.  When the target list and every target detail are fetched
without error, `getTarget` fetches the detail of every record named exactly
`StorageAccount`, in list order, and returns the container and cluster name of
the detail of the LAST such record (a later match overwrites an earlier one),
with the object-store name `StorageAccount`; with no such record it returns
three empty strings and fetches no detail. -/
theorem c2_last_match_wins (w : World) (h h1 : List Call) (creds cluster url : String)
    (ts : targets)
    (hts : getTargets w h creds cluster = ((url, ts, none), h1))
    (hdet : ∀ (h2 : List Call) (u : String), (w.fetchTarget h2 creds u).2 = none) :
    getTarget w h creds cluster =
      ((match (storageAccounts ts.Records).getLast? with
        | none => ("", "", "", none)
        | some v =>
          ((w.fetchTarget (h1 ++ (storageAccounts ts.Records).dropLast.map
              (detailCall creds url)) creds (url ++ v.UUID)).1.Container,
           (w.fetchTarget (h1 ++ (storageAccounts ts.Records).dropLast.map
              (detailCall creds url)) creds (url ++ v.UUID)).1.Cluster.Name,
           "StorageAccount", none)),
       h1 ++ (storageAccounts ts.Records).map (detailCall creds url)) := by
  rw [getTarget]
  simp only [hts]
  exact getTargetLoop_last w creds url hdet ts.Records "" "" "" h1

/-- C3, as amended.  When the target list has no record named
`StorageAccount`, `getTarget` returns container, cluster name and object-store
name all empty.  The pipeline then keeps the volumes whose owning server is
exactly `svm_` (and whose name does not start with `svm_`) and the mappings
whose object-store name is empty; when the volume and mapping fetches succeed
and no kept volume has the volume id of a kept mapping, it yields the empty row
list with no error. -/
theorem c3_no_storage_account (w : World) (h h1 h2 h3 : List Call)
    (creds cluster url : String) (ts : targets) (vols : volumes) (os : objectStore)
    (hts : getTargets w h creds cluster = ((url, ts, none), h1))
    (hno : ∀ v ∈ ts.Records, v.Name ≠ "StorageAccount")
    (hvols : getVolumes w h1 creds cluster = ((vols, none), h2))
    (hos : getObjectStore w h2 creds cluster = ((os, none), h3))
    (hjoin : ∀ v ∈ vols.Records, ∀ b ∈ os.Records, v.Server = "svm_" →
      HasPrefix v.Name "svm_" = false → b.OsName = "" → v.UUID ≠ b.VolUUID) :
    getTarget w h creds cluster = (("", "", "", none), h1) ∧
    getVolList w h1 creds cluster "" =
      ((vols.Records.filter (fun v =>
        decide (v.Server = "svm_") && !HasPrefix v.Name "svm_"), none), h2) ∧
    getBtUUidList w h2 creds cluster "" =
      ((os.Records.filter (fun b => decide (b.OsName = "")), none), h3) ∧
    getTieringSize w h creds cluster = (("", [], none), h3) := by
  have htarget : getTarget w h creds cluster = (("", "", "", none), h1) := by
    rw [getTarget]
    simp only [hts]
    exact getTargetLoop_no_match w creds url ts.Records "" "" "" h1 hno
  have hvl : getVolList w h1 creds cluster "" =
      ((vols.Records.filter (fun v =>
        decide (v.Server = "svm_") && !HasPrefix v.Name "svm_"), none), h2) := by
    rw [getVolList]
    simp only [hvols, getVolListLoop_eq, svm_append_empty, List.nil_append]
  have hbl : getBtUUidList w h2 creds cluster "" =
      ((os.Records.filter (fun b => decide (b.OsName = "")), none), h3) := by
    rw [getBtUUidList]
    simp only [hos, getBtUUidListLoop_eq, List.nil_append]
  refine ⟨htarget, hvl, hbl, ?_⟩
  rw [getTieringSize]
  simp only [htarget, hvl, hbl]
  rw [mapVolToTiering, mapVolToTieringLoop_no_match]
  intro v1 hv1 v2 hv2
  rw [List.mem_filter] at hv1 hv2
  simp only [Bool.and_eq_true, decide_eq_true_eq, Bool.not_eq_true'] at hv1 hv2
  exact hjoin v1 hv1.1 v2 hv2.1 hv1.2.1 hv1.2.2 hv2.2

/-! # The claims on concrete clusters -/

/-- C1.  The claim fails on the code at `worldNoBackup`, a cluster whose only
relationship goes to `other:volA`: no destination path starts with
`netapp-backup` and `getRelationships` infers the container `""`, but the
filter of `mapVolToBackup` is then `HasPrefix(path, "")`, true of every path,
so the summary is fetched, sized against the container `""` and returned as a
row, where the claim has the empty row list. -/
theorem c1_empty_container_returns_row :
    (∀ v ∈ [(⟨"r1", ⟨"other:volA", "d1"⟩⟩ : relationshipsRecord)],
      HasPrefix v.Destination.Path "netapp-backup" = false) ∧
    (getRelationships worldNoBackup [] "creds" "host").1 =
      .ret ("", "https://host/api/snapmirror/relationships/",
        ⟨[⟨"r1", ⟨"other:volA", "d1"⟩⟩]⟩, none) ∧
    HasPrefix "other:volA" "" = true ∧
    mapVolToBackup worldNoBackup [] "creds" "" "https://host/api/snapmirror/relationships/"
        ⟨[⟨"r1", ⟨"other:volA", "d1"⟩⟩]⟩ =
      (.ret ([⟨"volA", "d1", "1GB"⟩], none),
       [Call.get "creds" "https://host/api/snapmirror/relationships/r1",
        Call.size "" "d1"]) ∧
    (mapVolToBackup worldNoBackup [] "creds" "" "https://host/api/snapmirror/relationships/"
        ⟨[⟨"r1", ⟨"other:volA", "d1"⟩⟩]⟩).1 ≠ .ret ([], none) ∧
    getBackupSize worldNoBackup [] "creds" "host" =
      (.ret ([⟨"volA", "d1", "1GB"⟩], none),
       [Call.get "creds" "https://host/api/snapmirror/relationships/",
        Call.get "creds" "https://host/api/snapmirror/relationships/r1",
        Call.size "" "d1"]) := by
  decide

/-- C2 fails as stated: in `worldTwoTargets` the first record named
`StorageAccount` is `t1`, whose detail has container `c1` and cluster
`cluster1`, but `getTarget` returns those of the later record `t2`. -/
theorem c2_counterexample :
    (storageAccounts [⟨"t1", "StorageAccount"⟩, ⟨"t0", "Other"⟩,
        ⟨"t2", "StorageAccount"⟩]).head? = some ⟨"t1", "StorageAccount"⟩ ∧
    worldTwoTargets.fetchTarget [Call.get "creds" "https://host/api/cloud/targets/"] "creds"
        "https://host/api/cloud/targets/t1" =
      (⟨"t1", "StorageAccount", "c1", ⟨"cluster1"⟩⟩, none) ∧
    (getTarget worldTwoTargets [] "creds" "host").1 =
      ("c2", "cluster2", "StorageAccount", none) ∧
    (getTarget worldTwoTargets [] "creds" "host").1 ≠
      ("c1", "cluster1", "StorageAccount", none) := by
  decide

/-- C2 as amended, on `worldTwoTargets`. -/
theorem c2_last_match_wins_witness :
    getTarget worldTwoTargets [] "creds" "host" =
      (("c2", "cluster2", "StorageAccount", none),
       [Call.get "creds" "https://host/api/cloud/targets/",
        Call.get "creds" "https://host/api/cloud/targets/t1",
        Call.get "creds" "https://host/api/cloud/targets/t2"]) :=
  (c2_last_match_wins worldTwoTargets [] [Call.get "creds" "https://host/api/cloud/targets/"]
    "creds" "host" "https://host/api/cloud/targets/"
    ⟨[⟨"t1", "StorageAccount"⟩, ⟨"t0", "Other"⟩, ⟨"t2", "StorageAccount"⟩]⟩ (by decide)
    (fun h2 u => by
      simp only [worldTwoTargets, constWorld]
      split <;> rfl)).trans (by decide)

/-- C3 fails as stated: in `worldNoTarget` no target is named `StorageAccount`
and `getTarget` returns three empty strings, yet the pipeline returns a row. -/
theorem c3_counterexample :
    (∀ v ∈ [(⟨"t0", "Other"⟩ : targetsRecord)], v.Name ≠ "StorageAccount") ∧
    (getTarget worldNoTarget [] "creds" "host").1 = ("", "", "", none) ∧
    (getTieringSize worldNoTarget [] "creds" "host").1 =
      ("", [⟨"vol1", "b1", "1GB", "svm_", ""⟩], none) ∧
    (getTieringSize worldNoTarget [] "creds" "host").1.2.1 ≠ [] := by
  decide

/-- C3 as amended, on `worldNoTargetPlain`. -/
theorem c3_no_storage_account_witness :
    getTarget worldNoTargetPlain [] "creds" "host" =
      (("", "", "", none), [Call.get "creds" "https://host/api/cloud/targets/"]) ∧
    getTieringSize worldNoTargetPlain [] "creds" "host" =
      (("", [], none),
       [Call.get "creds" "https://host/api/cloud/targets/",
        Call.get "creds" "https://host/api/private/cli/volume/?fields=uuid,volume",
        Call.get "creds" ("https://host/api/private/cli/storage/aggregate/object-store/" ++
          "vol-btuuids?fields=buftree_uuid,vol_uuid")]) :=
  have hthm := c3_no_storage_account worldNoTargetPlain []
    [Call.get "creds" "https://host/api/cloud/targets/"]
    [Call.get "creds" "https://host/api/cloud/targets/",
     Call.get "creds" "https://host/api/private/cli/volume/?fields=uuid,volume"]
    [Call.get "creds" "https://host/api/cloud/targets/",
     Call.get "creds" "https://host/api/private/cli/volume/?fields=uuid,volume",
     Call.get "creds" ("https://host/api/private/cli/storage/aggregate/object-store/" ++
       "vol-btuuids?fields=buftree_uuid,vol_uuid")]
    "creds" "host" "https://host/api/cloud/targets/" ⟨[⟨"t0", "Other"⟩]⟩
    ⟨[⟨"vol1", "u1", "svm_cluster1"⟩]⟩ ⟨[⟨"StorageAccount", "b1", "u1"⟩]⟩
    (by decide) (by decide) (by decide) (by decide) (by decide)
  ⟨hthm.1, hthm.2.2.2⟩

/-- C4 on Scenario A of the spec: the container is `netapp-backup1`. -/
theorem c4_container_inference_witness :
    (getRelationships worldA [] "creds" "host").1 =
      .ret ("netapp-backup1", "https://host/api/snapmirror/relationships/",
        ⟨[⟨"r1", ⟨"netapp-backup1:volA", "d1"⟩⟩]⟩, none) :=
  (c4_container_inference worldA [] "creds" "host" rfl).trans (by decide)

/-- C5 on a volume with two mappings, a volume with none and a mapping with no
volume: two rows. -/
theorem c5_inner_join_witness :
    (mapVolToTiering worldTwoTargets [] "c2"
      [⟨"vol1", "v2", "svm_cluster2"⟩, ⟨"vol9", "v9", "svm_cluster2"⟩]
      [⟨"StorageAccount", "b1", "v2"⟩, ⟨"StorageAccount", "b2", "v2"⟩,
       ⟨"StorageAccount", "b3", "v7"⟩]).1.1.map
        (fun r => (r.Name, r.UUID, r.Server, r.Bucket)) =
      [("vol1", "b1", "svm_cluster2", "c2"), ("vol1", "b2", "svm_cluster2", "c2")] :=
  (c5_inner_join worldTwoTargets [] "c2"
    [⟨"vol1", "v2", "svm_cluster2"⟩, ⟨"vol9", "v9", "svm_cluster2"⟩]
    [⟨"StorageAccount", "b1", "v2"⟩, ⟨"StorageAccount", "b2", "v2"⟩,
     ⟨"StorageAccount", "b3", "v7"⟩] (fun _ _ _ => rfl)).2.1.trans (by decide)

/-- C6 on Scenario D of the spec: `svm_internal` is excluded for `cluster1`. -/
theorem c6_volume_filter_witness :
    (getVolList worldTwoTargets [] "creds" "host" "cluster1").1.1 =
      [⟨"vol1", "v2", "svm_cluster1"⟩] :=
  (c6_volume_filter worldTwoTargets [] "creds" "host" "cluster1" rfl).2.1.trans (by decide)

/-- C7 on `worldAllMismatch`: the summary is skipped after its detail fetch. -/
theorem c7_id_mismatch_skipped_witness :
    mapVolToBackupLoop worldAllMismatch "creds" "other" "u/"
        [⟨"r1", ⟨"other:volA", "d1"⟩⟩] [] [] =
      (.ret ([], none), [Call.get "creds" "u/r1"]) :=
  (c7_id_mismatch_skipped worldAllMismatch "creds" "other" "u/" ⟨"r1", ⟨"other:volA", "d1"⟩⟩
    [] [] [] (by decide) rfl (by decide)).1.trans (by decide)

/-- C8 on `worldBackupSizeFails` and `worldSizeFails`: in the backup run the
size lookup of the second relationship fails after the row of the first was
built, and in the tiering run the size lookup of the second mapping fails
after the row of the first was built; both runs return that error with no
rows. -/
theorem c8_error_discards_rows_witness :
    mapVolToBackup worldBackupSizeFails [] "creds" "netapp-backup1" "u/"
        ⟨[⟨"r1", ⟨"netapp-backup1:volA", "d1"⟩⟩, ⟨"r2", ⟨"netapp-backup1:volB", "b2"⟩⟩]⟩ =
      (.ret ([], some "denied"),
       [Call.get "creds" "u/r1", Call.size "netapp-backup1" "d1",
        Call.get "creds" "u/r2", Call.size "netapp-backup1" "b2"]) ∧
    mapVolToTiering worldSizeFails [] "c" [⟨"vol1", "v2", "svm_cluster1"⟩]
        [⟨"StorageAccount", "b1", "v2"⟩, ⟨"StorageAccount", "b2", "v2"⟩] =
      (([], some "denied"), [Call.size "c" "b1", Call.size "c" "b2"]) :=
  ⟨(c8_error_discards_rows worldBackupSizeFails [] "creds" "netapp-backup1" "u/" ⟨[]⟩
      [] []).2.1
      [⟨"r1", ⟨"netapp-backup1:volA", "d1"⟩⟩] [] ⟨"r2", ⟨"netapp-backup1:volB", "b2"⟩⟩
      [⟨"volA", "d1", "1GB"⟩]
      [Call.get "creds" "u/r1", Call.size "netapp-backup1" "d1"]
      ⟨"r2", ⟨"aggr1:volB"⟩, ⟨"netapp-backup1:volB", "b2"⟩⟩ "denied"
      (by decide) (by decide) (by decide) rfl (by decide),
   (c8_error_discards_rows worldSizeFails [] "creds" "c" "u/" ⟨[]⟩ [] []).2.2.1
      [] [] ⟨"vol1", "v2", "svm_cluster1"⟩ [⟨"StorageAccount", "b1", "v2"⟩] []
      ⟨"StorageAccount", "b2", "v2"⟩ [] [⟨"vol1", "b1", "1GB", "svm_cluster1", "c"⟩]
      [] [Call.size "c" "b1"] "denied" (by decide) (by decide) rfl (by decide)⟩

/-- C9 on Scenario A of the spec: the row is named `volA`. -/
theorem c9_volume_name_witness :
    mapVolToBackupLoop worldA "creds" "netapp-backup1" "u/"
        [⟨"r1", ⟨"netapp-backup1:volA", "d1"⟩⟩] [] [] =
      (.ret ([⟨"volA", "d1", "1GB"⟩], none),
       [Call.get "creds" "u/r1", Call.size "netapp-backup1" "d1"]) :=
  ((c9_volume_name worldA "creds" "netapp-backup1" "u/" ⟨"r1", ⟨"netapp-backup1:volA", "d1"⟩⟩
    [] [] [] ⟨"r1", ⟨"aggr1:volA"⟩, ⟨"netapp-backup1:volA", "d1"⟩⟩
    (by decide) rfl rfl).2.1 (by decide) "1GB" rfl).trans (by decide)

/-- C10 on Scenario A of the spec: the id of the row is the destination id `d1`
of the fetched detail, which was passed to the size lookup. -/
theorem c10_row_identifier_witness :
    ∃ v ∈ [(⟨"r1", ⟨"netapp-backup1:volA", "d1"⟩⟩ : relationshipsRecord)],
      ∃ (p : List Call) (r : relationship),
        p ++ [Call.get "creds" ("u/" ++ v.UUID), Call.size "netapp-backup1" "d1"] <+:
          (mapVolToBackup worldA [] "creds" "netapp-backup1" "u/"
            ⟨[⟨"r1", ⟨"netapp-backup1:volA", "d1"⟩⟩]⟩).2 ∧
        (getRelationship worldA p "creds" "u/" v.UUID).1 = (r, none) ∧
        r.UUID = v.UUID ∧ "d1" = r.Destination.UUID :=
  (c10_row_identifier worldA [] "creds" "netapp-backup1" "u/"
    ⟨[⟨"r1", ⟨"netapp-backup1:volA", "d1"⟩⟩]⟩ [] []).1 [⟨"volA", "d1", "1GB"⟩] (by decide)
    ⟨"volA", "d1", "1GB"⟩ (List.mem_singleton.mpr rfl)

end Mapstorage
